import Mathlib

/-!
Verification of the test-proxy-recorder engine.

A shallow embedding, in Lean 4, of the core of the `test-proxy-recorder`
record/replay HTTP proxy, together with proofs about the request
fingerprinter (`src/utils/getReqID.ts`), the recording store
(`src/utils/fileUtils.ts`), the CORS overlay, the control channel, the
mode state machine and the sequential replay dispatcher (`src/ProxyServer.ts`).

Pure functions of the source are translated into executable Lean
definitions; the stateful engine is modelled as explicit state passing.
JavaScript's number type is modelled by `Int`/`Nat` (all integers used
by the engine are small counters, ids and timeouts); JS `string | null`
is `Option String`, and JS truthiness of strings (`"" || x`) is made
explicit in the helpers below.
-/

namespace TestProxyRecorder

/-! ## JavaScript-style string helpers -/

/-- JS `s || null` for a string `s`: the empty string is falsy and becomes
`null`.  Used for `body: body || null` in `ProxyServer.ts`. -/
def jsOrNull (s : String) : Option String :=
  if s = "" then none else some s

/-- JS `a || b` where `a : string | null | undefined` and `b : string`:
`null`, `undefined` and `""` all fall through to `b`. -/
def jsOrD (a : Option String) (b : String) : String :=
  match a with
  | none => b
  | some s => if s = "" then b else s

/-- JS `a || b` where both sides are `string | null`; the empty string is
falsy and falls through. -/
def jsOrOpt (a b : Option String) : Option String :=
  match a with
  | none => b
  | some s => if s = "" then b else some s

/-- Split a character list at a separator; the JS contract for a
one-character separator: `""` yields `[""]`, separators at the ends
yield empty fragments. -/
def splitChars (sep : Char) : List Char → List (List Char)
  | [] => [[]]
  | c :: rest =>
    let r := splitChars sep rest
    if c = sep then [] :: r
    else
      match r with
      | [] => [[c]]
      | g :: gs => (c :: g) :: gs

/-- JS `s.split(c)` (no limit) for a one-character separator. -/
def jsSplit (s : String) (c : Char) : List String :=
  (splitChars c s.data).map String.mk

/-! ## MD5 (RFC 1321)

`getReqID.ts` calls Node's `crypto.createHash('md5')` on the query
string.  The digest is a pure function of the input bytes, which we
implement here so that concrete request keys can be evaluated inside
Lean.  32-bit machine words are `Nat`s kept below `2^32`; bitwise
operations are fuel-based structural recursions so that every
definition reduces inside the kernel. -/

/-- Bitwise AND on `n`-bit naturals, by structural recursion on the
width. -/
def bitAnd : Nat → Nat → Nat → Nat
  | 0, _, _ => 0
  | n + 1, a, b =>
    (if a % 2 = 1 ∧ b % 2 = 1 then 1 else 0) + 2 * bitAnd n (a / 2) (b / 2)

/-- Bitwise OR on `n`-bit naturals. -/
def bitOr : Nat → Nat → Nat → Nat
  | 0, _, _ => 0
  | n + 1, a, b =>
    (if a % 2 = 1 ∨ b % 2 = 1 then 1 else 0) + 2 * bitOr n (a / 2) (b / 2)

/-- Bitwise XOR on `n`-bit naturals. -/
def bitXor : Nat → Nat → Nat → Nat
  | 0, _, _ => 0
  | n + 1, a, b =>
    (if (a % 2 = 1) ≠ (b % 2 = 1) then 1 else 0) + 2 * bitXor n (a / 2) (b / 2)

/-- Bitwise complement of a 32-bit word (argument assumed `< 2^32`, which all MD5 state
words are). -/
def not32 (a : Nat) : Nat := 4294967295 - a % 4294967296

def and32 (a b : Nat) : Nat := bitAnd 32 a b
def or32 (a b : Nat) : Nat := bitOr 32 a b
def xor32 (a b : Nat) : Nat := bitXor 32 a b

/-- Addition modulo `2^32`. -/
def add32 (a b : Nat) : Nat := (a + b) % 4294967296

/-- Left-rotation of a 32-bit word by `s` bits. -/
def rotl32 (x s : Nat) : Nat :=
  (x % 2 ^ (32 - s)) * 2 ^ s + x / 2 ^ (32 - s)

/-- The 64 MD5 sine-table constants `K[i] = floor(2^32 * |sin(i+1)|)`. -/
def md5K : List Nat :=
  [0xd76aa478, 0xe8c7b756, 0x242070db, 0xc1bdceee,
   0xf57c0faf, 0x4787c62a, 0xa8304613, 0xfd469501,
   0x698098d8, 0x8b44f7af, 0xffff5bb1, 0x895cd7be,
   0x6b901122, 0xfd987193, 0xa679438e, 0x49b40821,
   0xf61e2562, 0xc040b340, 0x265e5a51, 0xe9b6c7aa,
   0xd62f105d, 0x02441453, 0xd8a1e681, 0xe7d3fbc8,
   0x21e1cde6, 0xc33707d6, 0xf4d50d87, 0x455a14ed,
   0xa9e3e905, 0xfcefa3f8, 0x676f02d9, 0x8d2a4c8a,
   0xfffa3942, 0x8771f681, 0x6d9d6122, 0xfde5380c,
   0xa4beea44, 0x4bdecfa9, 0xf6bb4b60, 0xbebfbc70,
   0x289b7ec6, 0xeaa127fa, 0xd4ef3085, 0x04881d05,
   0xd9d4d039, 0xe6db99e5, 0x1fa27cf8, 0xc4ac5665,
   0xf4292244, 0x432aff97, 0xab9423a7, 0xfc93a039,
   0x655b59c3, 0x8f0ccc92, 0xffeff47d, 0x85845dd1,
   0x6fa87e4f, 0xfe2ce6e0, 0xa3014314, 0x4e0811a1,
   0xf7537e82, 0xbd3af235, 0x2ad7d2bb, 0xeb86d391]

/-- The per-round left-rotation amounts. -/
def md5S : List Nat :=
  [7, 12, 17, 22, 7, 12, 17, 22, 7, 12, 17, 22, 7, 12, 17, 22,
   5,  9, 14, 20, 5,  9, 14, 20, 5,  9, 14, 20, 5,  9, 14, 20,
   4, 11, 16, 23, 4, 11, 16, 23, 4, 11, 16, 23, 4, 11, 16, 23,
   6, 10, 15, 21, 6, 10, 15, 21, 6, 10, 15, 21, 6, 10, 15, 21]

/-- Round function (`F`, `G`, `H`, `I` depending on the round quarter). -/
def md5F (i b c d : Nat) : Nat :=
  if i < 16 then or32 (and32 b c) (and32 (not32 b) d)
  else if i < 32 then or32 (and32 b d) (and32 c (not32 d))
  else if i < 48 then xor32 b (xor32 c d)
  else xor32 c (or32 b (not32 d))

/-- Message-word index used in round `i`. -/
def md5G (i : Nat) : Nat :=
  if i < 16 then i
  else if i < 32 then (5 * i + 1) % 16
  else if i < 48 then (3 * i + 5) % 16
  else (7 * i) % 16

/-- One MD5 round: state `(a, b, c, d)`, block words `m`. -/
def md5Round (m : Nat → Nat) (st : Nat × Nat × Nat × Nat) (i : Nat) :
    Nat × Nat × Nat × Nat :=
  let (a, b, c, d) := st
  let f := add32 (add32 (add32 a (md5F i b c d)) (md5K.getD i 0)) (m (md5G i))
  (d, add32 b (rotl32 f (md5S.getD i 0)), b, c)

/-- Little-endian word assembly of 4 bytes starting at offset `4*j` of a
64-byte block. -/
def md5Word (block : List Nat) (j : Nat) : Nat :=
  block.getD (4 * j) 0 + 256 * block.getD (4 * j + 1) 0 +
    65536 * block.getD (4 * j + 2) 0 + 16777216 * block.getD (4 * j + 3) 0

/-- Process a single 64-byte block on top of the running state. -/
def md5Block (st : Nat × Nat × Nat × Nat) (block : List Nat) :
    Nat × Nat × Nat × Nat :=
  let (a0, b0, c0, d0) := st
  let r := (List.range 64).foldl (md5Round (md5Word block)) (a0, b0, c0, d0)
  (add32 a0 r.1, add32 b0 r.2.1, add32 c0 r.2.2.1, add32 d0 r.2.2.2)

/-- Split a byte list into 64-byte chunks (`fuel` bounds the recursion by
the number of chunks). -/
def chunks64 : Nat → List Nat → List (List Nat)
  | 0, _ => []
  | _ + 1, [] => []
  | fuel + 1, l => l.take 64 :: chunks64 fuel (l.drop 64)

/-- MD5 padding: `0x80`, zeros to 56 mod 64, then the 8-byte little-endian
bit length. -/
def md5Pad (msg : List Nat) : List Nat :=
  let ml := msg.length * 8 % 2 ^ 64
  let padLen := (119 - msg.length % 64) % 64
  msg ++ [0x80] ++ List.replicate padLen 0 ++
    (List.range 8).map (fun i => ml / 2 ^ (8 * i) % 256)

/-- Little-endian byte expansion of a 32-bit word. -/
def leBytes32 (w : Nat) : List Nat :=
  [w % 256, w / 256 % 256, w / 65536 % 256, w / 16777216 % 256]

/-- MD5 digest (16 bytes) of a byte list. -/
def md5Bytes (msg : List Nat) : List Nat :=
  let padded := md5Pad msg
  let st := (chunks64 (padded.length / 64 + 1) padded).foldl md5Block
    (0x67452301, 0xefcdab89, 0x98badcfe, 0x10325476)
  leBytes32 st.1 ++ leBytes32 st.2.1 ++ leBytes32 st.2.2.1 ++ leBytes32 st.2.2.2

/-- Lowercase hex digit for a value `< 16`. -/
def hexDigit (n : Nat) : Char :=
  if n < 10 then Char.ofNat (48 + n) else Char.ofNat (87 + n)

/-- Lowercase hex string of a byte list. -/
def bytesToHex (l : List Nat) : String :=
  String.mk (l.flatMap (fun b => [hexDigit (b / 16), hexDigit (b % 16)]))

/-- UTF-8 encoding of a character, as the standard 1- to 4-byte scheme. -/
def utf8EncodeChar (c : Char) : List Nat :=
  let n := c.toNat
  if n < 128 then [n]
  else if n < 2048 then [192 + n / 64, 128 + n % 64]
  else if n < 65536 then [224 + n / 4096, 128 + n / 64 % 64, 128 + n % 64]
  else [240 + n / 262144, 128 + n / 4096 % 64, 128 + n / 64 % 64, 128 + n % 64]

/-- UTF-8 bytes of a string (Node's default encoding for `hash.update`). -/
def utf8Bytes (s : String) : List Nat :=
  s.data.flatMap utf8EncodeChar

/-- Hex MD5 digest of a string — the model of
`crypto.createHash('md5').update(s).digest('hex')`. -/
def md5Hex (s : String) : String :=
  bytesToHex (md5Bytes (utf8Bytes s))

/-! ## Request fingerprinter (`src/utils/getReqID.ts`) -/

/-- Characters the `filenamify` npm package replaces in a filename: the
filename-reserved set `<>:"/\|?*`, and C0 control characters.  (The
library's trailing-period trimming, Windows reserved device names and
default length cap concern pathological inputs and are outside this
model; no claim below depends on them.) -/
def filenameReserved (c : Char) : Bool :=
  c = '<' ∨ c = '>' ∨ c = ':' ∨ c = '"' ∨ c = '/' ∨ c = '\\' ∨
    c = '|' ∨ c = '?' ∨ c = '*' ∨ c.toNat < 32

/-- Model of `filenamify(s, { replacement: '_' })`: every reserved
character becomes `_`. -/
def filenamify (s : String) : String :=
  String.mk (s.data.map (fun c => if filenameReserved c then '_' else c))

/-- Model of `generateQueryHash` from `src/utils/getReqID.ts`: empty query gives no
suffix, otherwise `_` followed by the first 16 hex characters of the MD5
digest of the query. -/
def generateQueryHash (query : String) : String :=
  if query = "" then ""
  else "_" ++ String.mk ((md5Hex query).data.take 16)

/-- Model of `getReqID` from `src/utils/getReqID.ts`.  The source splits
`req.url` at **every** `'?'` (`req.url!.split('?')`) and takes
`urlParts[1]`, so only the part of the query before a second `'?'` is
hashed.  The path drops its leading slash, with `/` itself mapping to
`root`, and both the path and the final filename pass through
`filenamify`. -/
def getReqID (method url : String) : String :=
  let urlParts := jsSplit url '?'
  let pathname := urlParts.getD 0 ""
  let query := urlParts.getD 1 ""
  let pathPart := if pathname = "/" then "root" else String.mk (pathname.data.drop 1)
  let normalizedPath := filenamify pathPart
  let queryHash := generateQueryHash query
  filenamify (method ++ "_" ++ normalizedPath ++ queryHash ++ ".json")

/-! ## Data model (`src/types.ts`)

Headers are association lists of name/value pairs; Node lowercases
incoming header names, so lookups below use exact match on lowercase
names.  `sequence` is optional on a `Recording` (it is assigned at
persistence time by the store). -/

structure RecordedRequest where
  method : String
  url : String
  headers : List (String × String)
  body : Option String
  deriving DecidableEq, Repr

structure RecordedResponse where
  statusCode : Nat
  headers : List (String × String)
  body : Option String
  deriving DecidableEq, Repr

structure Recording where
  request : RecordedRequest
  response : Option RecordedResponse
  key : String
  recordingId : Nat
  sequence : Option Nat
  deriving DecidableEq, Repr

structure RecordingSession where
  id : String
  recordings : List Recording
  deriving DecidableEq, Repr

instance : IsTotal Recording (fun a b => a.recordingId ≤ b.recordingId) :=
  ⟨fun a b => Nat.le_total _ _⟩

instance : IsTrans Recording (fun a b => a.recordingId ≤ b.recordingId) :=
  ⟨fun _ _ _ => Nat.le_trans⟩

instance : IsAntisymm Recording (fun a b => a.recordingId < b.recordingId) :=
  ⟨fun _ _ h1 h2 => absurd (Nat.lt_trans h1 h2) (Nat.lt_irrefl _)⟩

/-! ## Recording store (`src/utils/fileUtils.ts`) -/

/-- Sort a list of recordings by ascending `recordingId`, as the stable
JS `Array.prototype.sort((a, b) => a.recordingId - b.recordingId)`.
`List.insertionSort` is stable, matching the ES2019 sort contract. -/
def sortByRecordingId (l : List Recording) : List Recording :=
  l.insertionSort (fun a b => a.recordingId ≤ b.recordingId)

/-- Append a recording to the group for its key, preserving the JS `Map`
insertion order: an existing key keeps its position, a new key goes to
the end. -/
def insertGroup (k : String) (r : Recording) :
    List (String × List Recording) → List (String × List Recording)
  | [] => [(k, [r])]
  | (k', g) :: rest =>
    if k' = k then (k', g ++ [r]) :: rest else (k', g) :: insertGroup k r rest

/-- The `recordingsByKey` map of `processRecordings`: a JS `Map` from key to
the recordings carrying it, in insertion order. -/
def groupByKey (rs : List Recording) : List (String × List Recording) :=
  rs.foldl (fun acc r => insertGroup r.key r acc) []

/-- Assign `sequence := i, i+1, …` along a list (the
`forEach((recording, index) => …)` numbering, generalised by the start
index for the recursion). -/
def assignFrom (i : Nat) : List Recording → List Recording
  | [] => []
  | r :: rest => { r with sequence := some i } :: assignFrom (i + 1) rest

/-- Assign `sequence := index` over a (sorted) key group. -/
def assignSequences (g : List Recording) : List Recording :=
  assignFrom 0 g

/-- Model of `processRecordings` from `src/utils/fileUtils.ts`: group by key, sort
each group by `recordingId`, number the group `0, 1, 2, …`, then sort the
flattened result by `recordingId` for the file. -/
def processRecordings (rs : List Recording) : List Recording :=
  let recordingsByKey := groupByKey rs
  let processed :=
    (recordingsByKey.map (fun kg => assignSequences (sortByRecordingId kg.2))).flatten
  sortByRecordingId processed

/-- Model of `saveRecordingSession` (the part visible in the persisted document):
the session with its recordings replaced by `processRecordings` of them.
Writing the JSON file itself is I/O and not modelled. -/
def saveRecordingSession (session : RecordingSession) : RecordingSession :=
  { session with recordings := processRecordings session.recordings }

/-! ## Replay dispatcher (`ProxyServer.ts`, `handleReplayRequest` /
`selectReplayRecord`)

The per-session replay state keeps, for every key, the set of
`recordingId`s already served (`servedRecordingIdsByKey`); we model one
key's set as a duplicate-free list of `Nat`. -/

/-- JS `Set.prototype.add`: no-op when the element is present. -/
def setAdd (s : List Nat) (n : Nat) : List Nat :=
  if n ∈ s then s else s ++ [n]

/-- Model of `selectReplayRecord`: the first candidate (in the pre-sorted list)
whose `recordingId` is not in the served set; if every candidate is
served, the last candidate again; `null` only when there are no
candidates at all. -/
def selectReplayRecord (recordsWithKey : List Recording)
    (servedForThisKey : List Nat) : Option Recording :=
  match recordsWithKey.find? (fun r => !servedForThisKey.contains r.recordingId) with
  | some r => some r
  | none => recordsWithKey.getLast?

/-- The candidate sort key used by `handleReplayRequest`:
`a.sequence !== undefined ? a.sequence : a.recordingId`. -/
def seqOrRecordingId (r : Recording) : Nat :=
  r.sequence.getD r.recordingId

/-- The candidate list of `handleReplayRequest` for one key: recordings
whose `key` matches and whose `response` is present, sorted by
`sequence` (falling back to `recordingId`). -/
def candidatesFor (session : RecordingSession) (key : String) : List Recording :=
  (session.recordings.filter (fun r => r.key = key ∧ r.response.isSome)).insertionSort
    (fun a b => seqOrRecordingId a ≤ seqOrRecordingId b)

/-- One replay request for a fixed key: select a record and mark its
`recordingId` served (`servedForThisKey.add(record.recordingId)`). -/
def replayStep (cands : List Recording) (served : List Nat) :
    Option Recording × List Nat :=
  match selectReplayRecord cands served with
  | some r => (some r, setAdd served r.recordingId)
  | none => (none, served)

/-- The served set after `k` requests for the key, starting from the
fresh (empty) set. -/
def servedAfter (cands : List Recording) : Nat → List Nat
  | 0 => []
  | k + 1 => (replayStep cands (servedAfter cands k)).2

/-- The recording returned by the `k`-th request for the key (counting
from 0). -/
def nthReplay (cands : List Recording) (k : Nat) : Option Recording :=
  (replayStep cands (servedAfter cands k)).1

/-! ## HTTP requests and responses

An incoming request is its method, url and (lowercased, single-valued)
header list.  A response is modelled by status code, header list and a
body; JSON bodies are kept structurally as field lists rather than as
serialized text. -/

structure Request where
  method : String
  url : String
  headers : List (String × String)
  deriving DecidableEq, Repr

/-- Header lookup, `req.headers[name]` (lookup on Node's lowercased header
record). -/
def getHeader (req : Request) (name : String) : Option String :=
  req.headers.lookup name

/-- A JSON value, as far as the proxy's response bodies need. -/
inductive JVal
  | s (v : String)
  | n (v : Int)
  | b (v : Bool)
  | jnull
  deriving DecidableEq, Repr

inductive RespBody
  | empty
  | text (v : Option String)
  | json (fields : List (String × JVal))
  deriving DecidableEq, Repr

structure Response where
  statusCode : Nat
  headers : List (String × String)
  body : RespBody
  deriving DecidableEq, Repr

/-- JS object spread `{...base, ...overlay}` as far as header lookup is
concerned: a name present in `overlay` wins, anything else comes from
`base`. -/
def mergeHeaders (base overlay : List (String × String)) :
    List (String × String) :=
  base.filter (fun kv => overlay.lookup kv.1 = none) ++ overlay

/-! ## CORS policy (`ProxyServer.ts`, `getCorsHeaders`) -/

def RECORDING_ID_HEADER : String := "x-test-rcrd-id"

/-- The default `access-control-allow-headers` list:
`` `Origin, X-Requested-With, Content-Type, Accept, Authorization, ${RECORDING_ID_HEADER}` ``. -/
def defaultAllowHeaders : String :=
  "Origin, X-Requested-With, Content-Type, Accept, Authorization, x-test-rcrd-id"

/-- Model of `getCorsHeaders`: the five-header CORS overlay computed from the
request. -/
def getCorsHeaders (req : Request) : List (String × String) :=
  [("access-control-allow-origin", jsOrD (getHeader req "origin") "*"),
   ("access-control-allow-credentials", "true"),
   ("access-control-allow-headers",
     jsOrD (getHeader req "access-control-request-headers") defaultAllowHeaders),
   ("access-control-allow-methods", "GET, POST, PUT, DELETE, PATCH, OPTIONS"),
   ("access-control-expose-headers", "*")]

/-- Model of `handleCorsPreflightRequest`: 200, CORS overlay plus a max-age, empty
body. -/
def corsPreflightResponse (req : Request) : Response :=
  { statusCode := 200
    headers := mergeHeaders (getCorsHeaders req) [("Access-Control-Max-Age", "86400")]
    body := .empty }

/-- Model of `sendJsonResponse` from `src/utils/httpHelpers.ts`: status, a
`Content-Type` header — and nothing else — plus the JSON body. -/
def sendJsonResponse (statusCode : Nat) (data : List (String × JVal)) : Response :=
  { statusCode
    headers := [("Content-Type", "application/json")]
    body := .json data }

/-- Model of `handleProxyError` (upstream connection failure): 502 with
`Content-Type` and the CORS overlay, body
`JSON.stringify({error: 'Proxy error', message: err.message})`. -/
def handleProxyError (req : Request) (errMessage : String) : Response :=
  { statusCode := 502
    headers := mergeHeaders [("Content-Type", "application/json")] (getCorsHeaders req)
    body := .json [("error", .s "Proxy error"), ("message", .s errMessage)] }

/-! ## Replay session-id resolution (`ProxyServer.ts`,
`getRecordingIdFromHeader` / `getRecordingIdFromCookie` /
`getRecordingIdFromRequest`) -/

/-- Hex value of an ASCII hex digit. -/
def hexVal (c : Char) : Option Nat :=
  if '0' ≤ c ∧ c ≤ '9' then some (c.toNat - 48)
  else if 'a' ≤ c ∧ c ≤ 'f' then some (c.toNat - 87)
  else if 'A' ≤ c ∧ c ≤ 'F' then some (c.toNat - 55)
  else none

/-- Model of `decodeURIComponent`, restricted to percent-encoded ASCII (which is
what `encodeURIComponent` produces for the ASCII session ids the proxy
sets); characters outside `%XX` sequences pass through unchanged. -/
def decodeURIComponentChars : List Char → List Char
  | [] => []
  | '%' :: h :: l :: rest =>
    match hexVal h, hexVal l with
    | some hi, some lo => Char.ofNat (16 * hi + lo) :: decodeURIComponentChars rest
    | _, _ => '%' :: decodeURIComponentChars (h :: l :: rest)
  | c :: rest => c :: decodeURIComponentChars rest

def decodeURIComponent (s : String) : String :=
  String.mk (decodeURIComponentChars s.data)

/-- Is `s` in the `encodeURIComponent` unreserved set? -/
def uriUnreserved (c : Char) : Bool :=
  ('A' ≤ c ∧ c ≤ 'Z') ∨ ('a' ≤ c ∧ c ≤ 'z') ∨ ('0' ≤ c ∧ c ≤ '9') ∨
    c = '-' ∨ c = '_' ∨ c = '.' ∨ c = '!' ∨ c = '~' ∨ c = '*' ∨
    c = '\x27' ∨ c = '(' ∨ c = ')'

/-- Model of `encodeURIComponent`, for ASCII strings: unreserved characters pass
through, others become `%XX` with uppercase hex. -/
def encodeURIComponent (s : String) : String :=
  String.mk (s.data.flatMap (fun c =>
    if uriUnreserved c then [c]
    else ['%', hexDigit (c.toNat / 16) |>.toUpper, (hexDigit (c.toNat % 16)).toUpper]))

/-- The regex `/proxy-recording-id=([^;]+)/` applied to the cookie
header: at each position, try to match the literal name, `=`, and a
non-empty run of non-`;` characters; the first position where the whole
pattern matches yields the capture. -/
def cookieMatch : List Char → Option (List Char)
  | [] => none
  | l@(_ :: rest) =>
    match ("proxy-recording-id=".data).isPrefixOf l with
    | true =>
      let after := l.drop "proxy-recording-id=".length
      let captured := after.takeWhile (· ≠ ';')
      if captured = [] then cookieMatch rest else some captured
    | false => cookieMatch rest

/-- Model of `getRecordingIdFromCookie`: `null` without a cookie header (or an
empty one, which is falsy), else the decoded first regex capture. -/
def getRecordingIdFromCookie (req : Request) : Option String :=
  match getHeader req "cookie" with
  | none => none
  | some cookies =>
    if cookies = "" then none
    else (cookieMatch cookies.data).map (fun cs => decodeURIComponent (String.mk cs))

/-- Model of `getRecordingIdFromHeader`: the `x-test-rcrd-id` request header
(`null` when missing or empty, as `if (!headerValue)`); multi-valued
headers are outside this single-valued model (the source takes the first
element). -/
def getRecordingIdFromHeader (req : Request) : Option String :=
  match getHeader req RECORDING_ID_HEADER with
  | none => none
  | some v => if v = "" then none else some v

/-- Model of `getRecordingIdFromRequest`: header preferred, cookie as fallback. -/
def getRecordingIdFromRequest (req : Request) : Option String :=
  jsOrOpt (getRecordingIdFromHeader req) (getRecordingIdFromCookie req)

/-- The id resolution of `getRecordingIdOrError`:
`this.getRecordingIdFromRequest(req) || this.replayId`. -/
def resolveReplaySessionId (req : Request) (replayId : Option String) :
    Option String :=
  jsOrOpt (getRecordingIdFromRequest req) replayId

/-- The 400 response of `getRecordingIdOrError` when no id can be
resolved. -/
def replayNoSessionResponse (req : Request) : Response :=
  { statusCode := 400
    headers := mergeHeaders [("Content-Type", "application/json")] (getCorsHeaders req)
    body := .json [("error", .s "No replay session active")] }

/-- The 404 emitted by `handleReplayRequest` when no candidate matches
the computed key. -/
def replayNotFoundResponse (req : Request) (key sessionId errorMsg : String) :
    Response :=
  { statusCode := 404
    headers := mergeHeaders [("Content-Type", "application/json")] (getCorsHeaders req)
    body := .json [("error", .s "No recording found"), ("message", .s errorMsg),
                   ("key", .s key), ("sessionId", .s sessionId)] }

/-- The 404 emitted by `handleReplayError` (missing or unreadable
recording file). -/
def replayErrorResponse (req : Request) (fileNotFound : Bool)
    (message key filePath : String) : Response :=
  { statusCode := 404
    headers := mergeHeaders [("Content-Type", "application/json")] (getCorsHeaders req)
    body := .json [("error", .s (if fileNotFound then "Recording file not found"
                                 else "Recording not found")),
                   ("message", .s message), ("key", .s key), ("filePath", .s filePath)] }

/-- The success path of `handleReplayRequest`: the recorded status and
body, recorded headers overlaid with CORS. -/
def replayServeResponse (req : Request) (resp : RecordedResponse) : Response :=
  { statusCode := resp.statusCode
    headers := mergeHeaders resp.headers (getCorsHeaders req)
    body := .text resp.body }

/-- The client-facing response of the forwarding path (transparent and
record modes): upstream status and buffered body, upstream headers
overlaid with CORS. -/
def forwardedResponse (req : Request) (upstream : RecordedResponse) : Response :=
  { statusCode := upstream.statusCode
    headers := mergeHeaders upstream.headers (getCorsHeaders req)
    body := .text upstream.body }

/-! ## Mode state machine (`ProxyServer.ts`)

The engine state: mode, ids, the current record session, the map of live
replay sessions, the armed auto-reset timer (its delay in ms; `none`
when no timer is pending) and the monotone recording-id counter.
`persisted` logs, in order, every session document written to disk by
`saveRecordingSession` (timestamps and the actual file I/O are not
modelled). -/

inductive Mode
  | transparent
  | record
  | replay
  deriving DecidableEq, Repr

structure ReplaySessionState where
  recordingId : String
  servedRecordingIdsByKey : List (String × List Nat)
  loadedSession : Option RecordingSession
  deriving DecidableEq, Repr

structure EngineState where
  mode : Mode
  recordingId : Option String
  replayId : Option String
  modeTimeout : Option Int
  currentSession : Option RecordingSession
  replaySessions : List (String × ReplaySessionState)
  recordingIdCounter : Nat
  persisted : List RecordingSession
  deriving DecidableEq, Repr

/-- The engine as constructed: transparent, nothing armed, counter 0. -/
def initialState : EngineState :=
  { mode := .transparent, recordingId := none, replayId := none
    modeTimeout := none, currentSession := none, replaySessions := []
    recordingIdCounter := 0, persisted := [] }

def DEFAULT_TIMEOUT_MS : Int := 120000

/-- The document written for a record session when it is persisted on a
mode transition or mode timeout: incomplete recordings (no `response`)
are dropped (`saveCurrentSession(true)` filters them), then
`saveRecordingSession` assigns sequences. -/
def persistedDocument (session : RecordingSession) : RecordingSession :=
  saveRecordingSession
    { session with recordings := session.recordings.filter (fun r => r.response.isSome) }

/-- Model of `saveCurrentSession` on a mode transition or timeout: append the
persisted document to the disk log (no-op without a current session). -/
def saveCurrentSession (st : EngineState) : EngineState :=
  match st.currentSession with
  | none => st
  | some s => { st with persisted := st.persisted ++ [persistedDocument s] }

/-- Model of `switchToTransparentMode`. -/
def switchToTransparentMode (st : EngineState) : EngineState :=
  { st with mode := .transparent, recordingId := none, replayId := none
            currentSession := none, modeTimeout := none }

/-- Model of `switchToRecordMode`: fresh session, counters reset. -/
def switchToRecordMode (st : EngineState) (id : String) : EngineState :=
  { st with mode := .record, recordingId := some id, replayId := none
            currentSession := some { id := id, recordings := [] }
            recordingIdCounter := 0 }

/-- A fresh replay session state (`getOrCreateReplaySession`, create
branch). -/
def freshReplaySession (id : String) : ReplaySessionState :=
  { recordingId := id, servedRecordingIdsByKey := [], loadedSession := none }

/-- Model of `switchToReplayMode`: an existing session for the id keeps its
loaded recording but has its served-tracker cleared; otherwise a fresh
session state is created. -/
def switchToReplayMode (st : EngineState) (id : String) : EngineState :=
  let sessions :=
    match st.replaySessions.lookup id with
    | some s =>
      st.replaySessions.map (fun kv =>
        if kv.1 = id then (kv.1, { s with servedRecordingIdsByKey := [] }) else kv)
    | none => st.replaySessions ++ [(id, freshReplaySession id)]
  { st with mode := .replay, replayId := some id, recordingId := none
            currentSession := none, replaySessions := sessions }

/-- JS falsy test for the optional `id` of a control request
(`if (!id)`). -/
def idMissing : Option String → Bool
  | none => true
  | some s => s = ""

/-- Model of `switchMode`: persist an active record session, then branch on the
requested mode; record/replay without an id throw (surfaced as the
returned error string), as does an unknown mode. -/
def switchMode (st : EngineState) (mode : Option Mode) (id : Option String) :
    EngineState × Option String :=
  let st := if st.currentSession.isSome ∧ st.mode = .record then saveCurrentSession st else st
  match mode with
  | some .transparent => (switchToTransparentMode st, none)
  | some .record =>
    if idMissing id then (st, some "Record ID is required")
    else (switchToRecordMode st (id.getD ""), none)
  | some .replay =>
    if idMissing id then (st, some "Replay ID is required")
    else (switchToReplayMode st (id.getD ""), none)
  | none => (st, some "Invalid mode. Use: transparent, record, or replay")

/-- Model of `setupModeTimeout`, as in the current revision of `ProxyServer.ts`:
the timer is armed unconditionally with the given delay — there is no
`timeout > 0` guard (an older revision had one). -/
def setupModeTimeout (st : EngineState) (timeout : Int) : EngineState :=
  { st with modeTimeout := some timeout }

/-- The mode-timeout firing (`setTimeout` callback): persist the current
session and fall back to transparent. -/
def modeTimeoutFire (st : EngineState) : EngineState :=
  switchToTransparentMode (saveCurrentSession st)

/-- A parsed control-channel payload (`{mode?, id?, timeout?}`). -/
structure ControlRequest where
  mode : Option Mode
  id : Option String
  timeout : Option Int
  deriving DecidableEq, Repr

/-- Model of `handleControlRequest` (mode-switch form): default the timeout
(`requestTimeout ?? DEFAULT_TIMEOUT_MS`), clear any armed timer, switch,
re-arm the timer, answer 200 with `{success, mode, id, timeout}` (plus a
`Set-Cookie` session binding on switches to replay); a `switchMode`
error leaves the timer cleared and answers 400. -/
def handleControlRequest (st : EngineState) (data : ControlRequest) :
    EngineState × Response :=
  let timeout := data.timeout.getD DEFAULT_TIMEOUT_MS
  let st1 := { st with modeTimeout := none }
  match switchMode st1 data.mode data.id with
  | (st2, some errMessage) =>
    (st2, sendJsonResponse 400 [("error", .s errMessage)])
  | (st2, none) =>
    let st3 := setupModeTimeout st2 timeout
    let baseResp := sendJsonResponse 200
      [("success", .b true),
       ("mode", .s (match st3.mode with
                    | .transparent => "transparent"
                    | .record => "record"
                    | .replay => "replay")),
       ("id", match jsOrOpt st3.recordingId st3.replayId with
              | some v => .s v
              | none => .jnull),
       ("timeout", .n timeout)]
    let resp :=
      if data.mode = some .replay ∧ ¬ idMissing data.id then
        { baseResp with headers :=
            ("Set-Cookie",
              "proxy-recording-id=" ++ encodeURIComponent (data.id.getD "") ++
                "; HttpOnly; Path=/; SameSite=Lax") :: baseResp.headers }
      else baseResp
    (st3, resp)

/-! ## Request dispatch (`handleRequest`) -/

def CONTROL_ENDPOINT : String := "/__control"

/-- Where `handleRequest` routes a request: OPTIONS preflight first, the
control endpoint next (query ignored), then the replay dispatcher
whenever the engine mode is `replay`, and otherwise the forwarder. -/
inductive RouteTag
  | preflight
  | control
  | replayDispatch
  | forward
  deriving DecidableEq, Repr

def routeRequest (st : EngineState) (req : Request) : RouteTag :=
  if req.method = "OPTIONS" then .preflight
  else if (jsSplit req.url '?').getD 0 "" = CONTROL_ENDPOINT then .control
  else if st.mode = .replay then .replayDispatch
  else .forward

/-! ## Record-mode capture (`saveRequestRecordSync`,
`updateRequestBodySync`, `recordResponseData`) -/

/-- Apply `f` to the first element satisfying `p` (the in-place mutation
of the object found by `Array.prototype.find`). -/
def updateFirst (p : α → Bool) (f : α → α) : List α → List α
  | [] => []
  | x :: xs => if p x then f x :: xs else x :: updateFirst p f xs

/-- Model of `saveRequestRecordSync`: synchronously allocate
`recordingId = counter++` and append a shell recording (no response,
`body: body || null`) to the current session; a no-op (returning no id)
without a current session.  The returned id plays the role of the
`__recordingId` pinned onto the request object. -/
def saveRequestRecordSync (st : EngineState) (req : Request)
    (body : Option String) : EngineState × Option Nat :=
  match st.currentSession with
  | none => (st, none)
  | some session =>
    let recordingId := st.recordingIdCounter
    let record : Recording :=
      { request := { method := req.method, url := req.url, headers := req.headers
                     body := body.bind jsOrNull }
        response := none
        key := getReqID req.method req.url
        recordingId := recordingId
        sequence := none }
    ({ st with
        recordingIdCounter := recordingId + 1
        currentSession := some
          { session with recordings := session.recordings ++ [record] } },
     some recordingId)

/-- Model of `updateRequestBodySync`: locate the recording pinned by
`recordingId` and set `request.body = body || null`. -/
def updateRequestBodySync (st : EngineState) (recordingId : Nat)
    (body : String) : EngineState :=
  match st.currentSession with
  | none => st
  | some session =>
    let recs := updateFirst (fun r => r.recordingId = recordingId)
      (fun r => { r with request := { r.request with body := jsOrNull body } })
      session.recordings
    { st with currentSession := some { session with recordings := recs } }

/-- Model of `recordResponseData`: locate the recording pinned by `recordingId`
and store the upstream response (`body: body || null`); returns whether
a recording was completed. -/
def recordResponseData (st : EngineState) (recordingId : Nat)
    (statusCode : Nat) (headers : List (String × String)) (body : String) :
    EngineState × Bool :=
  match st.currentSession with
  | none => (st, false)
  | some session =>
    if session.recordings.any (fun r => r.recordingId = recordingId) then
      let recs := updateFirst (fun r => r.recordingId = recordingId)
        (fun r =>
          let resp : RecordedResponse :=
            { statusCode := statusCode, headers := headers, body := jsOrNull body }
          { r with response := some resp })
        session.recordings
      ({ st with currentSession := some { session with recordings := recs } }, true)
    else (st, false)

/-- The record-mode flow of `bufferAndProxyRequest` when the upstream
connection fails: the shell recording was already saved synchronously
(`handleProxyRequest`), the buffered request body is written back, the
`proxyReq.on('error')` hook answers via `handleProxyError`, and
`recordResponseData` never runs — the recording's `response` stays
absent. -/
def recordModeUpstreamFailure (st : EngineState) (req : Request)
    (bufferedBody : String) (errMessage : String) : EngineState × Response :=
  let step := saveRequestRecordSync st req none
  let st2 := match step.2 with
    | some rid => updateRequestBodySync step.1 rid bufferedBody
    | none => step.1
  (st2, handleProxyError req errMessage)

/-! ## Control-channel cleanup -/

/-- Modelled from the spec: the server-side `cleanup` branch of the
control channel is absent from the sources (only its integration tests
and the `cleanupSession` caller in `src/playwright/index.ts` exist).
Spec §4.4: a `POST {cleanup: true, id}` must "Persist `id`'s record
session if active, drop `id`'s replay session state", answering 200
(the integration tests additionally expect
`{success: true, message: … cleaned up …}` and a 400 when `id` is
missing); §5 cancels any armed mode timer on cleanup, and §3 destroys
the record session after persisting it. -/
def handleCleanupRequest (st : EngineState) (id : Option String) :
    EngineState × Response :=
  if idMissing id then
    (st, sendJsonResponse 400 [("error", .s "Session id is required for cleanup")])
  else
    let theId := id.getD ""
    let recordActive :=
      st.currentSession.isSome ∧ st.recordingId = some theId
    let st1 := if recordActive then saveCurrentSession st else st
    let st2 :=
      { st1 with
          currentSession := if recordActive then none else st1.currentSession
          recordingId := if recordActive then none else st1.recordingId
          replaySessions := st1.replaySessions.filter (fun kv => kv.1 ≠ theId)
          modeTimeout := none }
    (st2, sendJsonResponse 200
      [("success", .b true),
       ("message", .s ("Session " ++ theId ++ " cleaned up"))])

/-- A full control-channel payload; `cleanup: true` selects the cleanup
operation.  Modelled from the spec (§4.4 table): the cleanup form is a
control operation of its own, handled before a mode switch is
attempted. -/
structure ControlPayload where
  mode : Option Mode
  id : Option String
  timeout : Option Int
  cleanup : Bool
  deriving DecidableEq, Repr

/-- Control-channel dispatch over the two payload forms. -/
def dispatchControl (st : EngineState) (p : ControlPayload) :
    EngineState × Response :=
  if p.cleanup then handleCleanupRequest st p.id
  else handleControlRequest st { mode := p.mode, id := p.id, timeout := p.timeout }

/-! ## Derived definitions used by the statements below -/

/-- The composite `getRecordingIdOrError`: the resolved session id, or the
400 response it writes. -/
def getRecordingIdOrError (req : Request) (replayId : Option String) :
    Except Response String :=
  match resolveReplaySessionId req replayId with
  | some id => .ok id
  | none => .error (replayNoSessionResponse req)

/-- A response carries the full five-header CORS overlay for `req`, with
the origin / allow-headers values `getCorsHeaders` computes. -/
def hasCorsOverlay (req : Request) (resp : Response) : Prop :=
  resp.headers.lookup "access-control-allow-origin" =
      some (jsOrD (getHeader req "origin") "*") ∧
    resp.headers.lookup "access-control-allow-credentials" = some "true" ∧
    resp.headers.lookup "access-control-allow-headers" =
      some (jsOrD (getHeader req "access-control-request-headers") defaultAllowHeaders) ∧
    resp.headers.lookup "access-control-allow-methods" =
      some "GET, POST, PUT, DELETE, PATCH, OPTIONS" ∧
    resp.headers.lookup "access-control-expose-headers" = some "*"

/-- The shell recording appended synchronously for a request that later
fails upstream: request captured (body from the buffer), `response`
absent. -/
def failedShell (st : EngineState) (req : Request) (bufferedBody : String) :
    Recording :=
  { request := { method := req.method, url := req.url, headers := req.headers
                 body := jsOrNull bufferedBody }
    response := none
    key := getReqID req.method req.url
    recordingId := st.recordingIdCounter
    sequence := none }

/-- No recording of the session stores an empty-string body, on either
side of the exchange. -/
def sessionNoEmptyBodies (session : RecordingSession) : Prop :=
  ∀ r ∈ session.recordings,
    r.request.body ≠ some "" ∧ ∀ resp, r.response = some resp → resp.body ≠ some ""

/-- The engine's current record session (when any) has no empty-string
bodies. -/
def stateNoEmptyBodies (st : EngineState) : Prop :=
  ∀ s, st.currentSession = some s → sessionNoEmptyBodies s

/-- First-match lookup in the key-group list (`Map.prototype.get`,
specialised to the lists `groupByKey` builds); `[]` for an absent key. -/
def groupLookup (K : String) : List (String × List Recording) → List Recording
  | [] => []
  | (k, g) :: rest => if k = K then g else groupLookup K rest

end TestProxyRecorder

namespace TestProxyRecorder

/-! ## General lemmas -/

/-- The helper `jsOrNull` never stores the empty string. -/
theorem jsOrNull_ne_some_empty (s : String) : jsOrNull s ≠ some "" := by
  unfold jsOrNull
  by_cases h : s = "" <;> simp [h]

/-- A name present in the overlay is found with the overlay's value
after a JS-spread header merge. -/
theorem lookup_mergeHeaders (base overlay : List (String × String))
    (n v : String) (h : overlay.lookup n = some v) :
    (mergeHeaders base overlay).lookup n = some v := by
  unfold mergeHeaders
  induction base with
  | nil => simpa using h
  | cons kv rest ih =>
    obtain ⟨k1, v1⟩ := kv
    by_cases hk : overlay.lookup k1 = none
    · have hne : (n == k1) = false := by
        rw [beq_eq_false_iff_ne]
        intro he
        rw [he, hk] at h
        exact Option.noConfusion h
      simp only [List.filter_cons, hk, decide_True, if_true, List.cons_append,
        List.lookup_cons, hne]
      exact ih
    · simp only [List.filter_cons, hk, decide_False, if_false, List.cons_append]
      simpa [hk] using ih

/-- The five CORS lookups on `getCorsHeaders` itself. -/
theorem getCorsHeaders_lookup (req : Request) :
    (getCorsHeaders req).lookup "access-control-allow-origin" =
        some (jsOrD (getHeader req "origin") "*") ∧
      (getCorsHeaders req).lookup "access-control-allow-credentials" = some "true" ∧
      (getCorsHeaders req).lookup "access-control-allow-headers" =
        some (jsOrD (getHeader req "access-control-request-headers") defaultAllowHeaders) ∧
      (getCorsHeaders req).lookup "access-control-allow-methods" =
        some "GET, POST, PUT, DELETE, PATCH, OPTIONS" ∧
      (getCorsHeaders req).lookup "access-control-expose-headers" = some "*" := by
  refine ⟨?_, ?_, ?_, ?_, ?_⟩ <;> rfl

/-- Merging the CORS overlay on top of any base headers yields the full
overlay. -/
theorem hasCorsOverlay_merge (req : Request) (base : List (String × String))
    (statusCode : Nat) (body : RespBody) :
    hasCorsOverlay req
      { statusCode := statusCode
        headers := mergeHeaders base (getCorsHeaders req)
        body := body } := by
  obtain ⟨h1, h2, h3, h4, h5⟩ := getCorsHeaders_lookup req
  exact ⟨lookup_mergeHeaders _ _ _ _ h1, lookup_mergeHeaders _ _ _ _ h2,
    lookup_mergeHeaders _ _ _ _ h3, lookup_mergeHeaders _ _ _ _ h4,
    lookup_mergeHeaders _ _ _ _ h5⟩

end TestProxyRecorder

namespace TestProxyRecorder

/-- The regex capture `([^;]+)` is never empty. -/
theorem cookieMatch_ne_nil (l : List Char) (cs : List Char)
    (h : cookieMatch l = some cs) : cs ≠ [] := by
  induction l with
  | nil => simp [cookieMatch] at h
  | cons c rest ih =>
    rw [cookieMatch] at h
    split at h
    · simp only at h
      split at h
      · exact ih h
      · rename_i hne
        obtain rfl := Option.some.inj h
        exact hne
    · exact ih h

/-- Percent-decoding never turns a non-empty character list into an
empty one. -/
theorem decodeURIComponentChars_ne_nil (l : List Char) (h : l ≠ []) :
    decodeURIComponentChars l ≠ [] := by
  rw [decodeURIComponentChars.eq_def]
  split
  · exact absurd rfl h
  · split <;> simp
  · simp

/-- The cookie extraction never produces the empty string. -/
theorem getRecordingIdFromCookie_ne_empty (req : Request) :
    getRecordingIdFromCookie req ≠ some "" := by
  unfold getRecordingIdFromCookie
  cases hc : getHeader req "cookie" with
  | none => simp
  | some cookies =>
    by_cases hemp : cookies = ""
    · simp [hemp]
    · simp only [hemp, if_false]
      intro hcontra
      obtain ⟨cs, hcs, hdec⟩ := Option.map_eq_some'.mp hcontra
      have h1 : cs ≠ [] := cookieMatch_ne_nil _ _ hcs
      have h2 : decodeURIComponentChars cs ≠ [] := decodeURIComponentChars_ne_nil _ h1
      apply h2
      have : (decodeURIComponent (String.mk cs)).data = ("" : String).data := by
        rw [hdec]
      simpa [decodeURIComponent] using this

end TestProxyRecorder

namespace TestProxyRecorder

/-- C4: for every replay request, the session id resolves to the
`x-test-rcrd-id` header if present, else the `proxy-recording-id` cookie
if present, else the globally-active `replayId`; when all three are
absent, `getRecordingIdOrError` answers 400 with body
`{"error": "No replay session active"}` carrying the CORS overlay. -/
theorem replay_session_id_resolution (req : Request) (replayId : Option String) :
    (∀ v, getRecordingIdFromHeader req = some v →
      resolveReplaySessionId req replayId = some v) ∧
    (∀ v, getRecordingIdFromHeader req = none →
      getRecordingIdFromCookie req = some v →
      resolveReplaySessionId req replayId = some v) ∧
    (getRecordingIdFromHeader req = none → getRecordingIdFromCookie req = none →
      resolveReplaySessionId req replayId = replayId) ∧
    (resolveReplaySessionId req replayId = none →
      getRecordingIdOrError req replayId = .error (replayNoSessionResponse req) ∧
      (replayNoSessionResponse req).statusCode = 400 ∧
      (replayNoSessionResponse req).body =
        .json [("error", .s "No replay session active")] ∧
      hasCorsOverlay req (replayNoSessionResponse req)) := by
  have hheadne : ∀ v, getRecordingIdFromHeader req = some v → v ≠ "" := by
    intro v hv
    unfold getRecordingIdFromHeader at hv
    cases h : getHeader req RECORDING_ID_HEADER with
    | none => rw [h] at hv; exact Option.noConfusion hv
    | some w =>
      rw [h] at hv
      change (if w = "" then none else some w) = some v at hv
      by_cases hw : w = ""
      · rw [if_pos hw] at hv; exact Option.noConfusion hv
      · rw [if_neg hw] at hv
        obtain rfl := Option.some.inj hv
        exact hw
  refine ⟨?_, ?_, ?_, ?_⟩
  · intro v hv
    unfold resolveReplaySessionId getRecordingIdFromRequest
    rw [hv]
    unfold jsOrOpt
    simp [hheadne v hv]
  · intro v hh hcook
    have hvne : v ≠ "" := by
      intro he
      exact getRecordingIdFromCookie_ne_empty req (he ▸ hcook)
    unfold resolveReplaySessionId getRecordingIdFromRequest
    rw [hh, hcook]
    unfold jsOrOpt
    simp [hvne]
  · intro hh hcook
    unfold resolveReplaySessionId getRecordingIdFromRequest
    rw [hh, hcook]
    rfl
  · intro hres
    refine ⟨?_, rfl, rfl, ?_⟩
    · unfold getRecordingIdOrError
      rw [hres]
    · exact hasCorsOverlay_merge req _ _ _

/-- Witness for `replay_session_id_resolution` at a concrete request
carrying both a header and a cookie: the header wins. -/
theorem replay_session_id_resolution_witness :
    resolveReplaySessionId
      { method := "GET", url := "/api"
        headers := [("x-test-rcrd-id", "sA"), ("cookie", "proxy-recording-id=sB")] }
      (some "sG") = some "sA" :=
  (replay_session_id_resolution
    { method := "GET", url := "/api"
      headers := [("x-test-rcrd-id", "sA"), ("cookie", "proxy-recording-id=sB")] }
    (some "sG")).1 "sA" (by decide)

end TestProxyRecorder

namespace TestProxyRecorder

/-- C6 counterexample: a mode-switch with `timeout: 0` still arms the
mode timer (with delay 0); the auto-reset is not disabled. -/
theorem timeout_zero_still_arms_timer :
    (handleControlRequest initialState
      { mode := some .record, id := some "s", timeout := some 0 }).1.modeTimeout =
        some 0 ∧
    (handleControlRequest initialState
      { mode := some .record, id := some "s", timeout := some 0 }).1.modeTimeout ≠
        none := by
  constructor
  · rfl
  · intro h
    exact Option.noConfusion (((rfl :
      (handleControlRequest initialState
        { mode := some .record, id := some "s", timeout := some 0 }).1.modeTimeout =
          some 0) ▸ h))

/-- C6 as amended: a missing `timeout` defaults to 120 000 ms, but a
successful switch always arms the mode timer with the requested value —
`setupModeTimeout` has no `timeout > 0` guard, so 0 and negative values
arm an (immediately firing) timer instead of disabling the
auto-reset. -/
theorem control_timeout_always_armed (st : EngineState) (data : ControlRequest)
    (hok : (switchMode { st with modeTimeout := none } data.mode data.id).2 = none) :
    (handleControlRequest st data).1.modeTimeout =
      some (data.timeout.getD DEFAULT_TIMEOUT_MS) ∧
    (handleControlRequest st data).2.statusCode = 200 := by
  unfold handleControlRequest
  rcases hsw : switchMode { st with modeTimeout := none } data.mode data.id with ⟨st2, err⟩
  cases err with
  | some e =>
    rw [hsw] at hok
    exact Option.noConfusion hok
  | none =>
    simp only [hsw]
    constructor
    · rfl
    · by_cases hcookie : data.mode = some .replay ∧ ¬ idMissing data.id = true
      · simp only [hcookie, if_pos]
        rfl
      · simp only [if_neg hcookie]
        rfl

/-- Witness for `control_timeout_always_armed`: a switch with no
`timeout` field arms the timer with the 120 000 ms default. -/
theorem control_timeout_always_armed_witness :
    (handleControlRequest initialState
      { mode := some .record, id := some "s", timeout := none }).1.modeTimeout =
        some 120000 :=
  (control_timeout_always_armed initialState
    { mode := some .record, id := some "s", timeout := none } (by decide)).1

end TestProxyRecorder

namespace TestProxyRecorder

/-- A name found in the base and absent from the overlay survives a
JS-spread header merge. -/
theorem lookup_mergeHeaders_base (base overlay : List (String × String))
    (n v : String) (hb : base.lookup n = some v) (ho : overlay.lookup n = none) :
    (mergeHeaders base overlay).lookup n = some v := by
  unfold mergeHeaders
  induction base with
  | nil => exact absurd hb (by simp)
  | cons kv rest ih =>
    obtain ⟨k1, v1⟩ := kv
    rw [List.lookup_cons] at hb
    cases hn : n == k1 with
    | true =>
      rw [hn] at hb
      change some v1 = some v at hb
      have hk : overlay.lookup k1 = none := by
        rw [← (beq_iff_eq.mp hn)]
        exact ho
      simp only [List.filter_cons, hk, decide_True, if_true, List.cons_append,
        List.lookup_cons, hn]
      exact hb
    | false =>
      rw [hn] at hb
      change List.lookup n rest = some v at hb
      by_cases hk : overlay.lookup k1 = none
      · simp only [List.filter_cons, hk, decide_True, if_true, List.cons_append,
          List.lookup_cons, hn]
        exact ih hb
      · simp only [List.filter_cons, hk, List.cons_append]
        simpa [hk] using ih hb

/-- C7 counterexample: the control channel's 200 response (written by
`sendJsonResponse`) carries no CORS headers at all, refuting "every
2xx/4xx/5xx response … carries all five CORS overlay headers" for
control-channel responses. -/
theorem control_response_lacks_cors :
    ((handleControlRequest initialState
        { mode := some .record, id := some "s", timeout := none }).2.headers.lookup
          "access-control-allow-origin" = none) ∧
      (handleControlRequest initialState
        { mode := some .record, id := some "s", timeout := none }).2.statusCode = 200 := by
  decide

/-- C7 as amended: every response written through the proxy's CORS
path — preflight, the replay dispatcher's 400/404/success responses,
the forwarded upstream response and the 502 proxy-error response —
carries all five CORS headers, with the origin and allow-headers values
of `getCorsHeaders`; the control channel's `sendJsonResponse` responses
are the exception and carry none of them. -/
theorem cors_overlay_on_emitted_responses
    (req : Request) (key sessionId errorMsg message filePath : String)
    (fileNotFound : Bool) (rr ur : RecordedResponse) (errMessage : String)
    (status : Nat) (data : List (String × JVal)) :
    hasCorsOverlay req (corsPreflightResponse req) ∧
    hasCorsOverlay req (replayNoSessionResponse req) ∧
    hasCorsOverlay req (replayNotFoundResponse req key sessionId errorMsg) ∧
    hasCorsOverlay req (replayErrorResponse req fileNotFound message key filePath) ∧
    hasCorsOverlay req (replayServeResponse req rr) ∧
    hasCorsOverlay req (forwardedResponse req ur) ∧
    hasCorsOverlay req (handleProxyError req errMessage) ∧
    (sendJsonResponse status data).headers.lookup "access-control-allow-origin" = none := by
  obtain ⟨h1, h2, h3, h4, h5⟩ := getCorsHeaders_lookup req
  refine ⟨⟨?_, ?_, ?_, ?_, ?_⟩, hasCorsOverlay_merge req _ _ _,
    hasCorsOverlay_merge req _ _ _, hasCorsOverlay_merge req _ _ _,
    hasCorsOverlay_merge req _ _ _, hasCorsOverlay_merge req _ _ _,
    hasCorsOverlay_merge req _ _ _, by rfl⟩
  · exact lookup_mergeHeaders_base _ _ _ _ h1 (by rfl)
  · exact lookup_mergeHeaders_base _ _ _ _ h2 (by rfl)
  · exact lookup_mergeHeaders_base _ _ _ _ h3 (by rfl)
  · exact lookup_mergeHeaders_base _ _ _ _ h4 (by rfl)
  · exact lookup_mergeHeaders_base _ _ _ _ h5 (by rfl)

end TestProxyRecorder

namespace TestProxyRecorder

/-- C8 counterexample: in transparent mode, a data request bound by the
`x-test-rcrd-id` header to a live replay session is still routed to the
forwarder, not to the replay dispatcher. -/
theorem transparent_mode_ignores_sticky_binding :
    routeRequest
        { initialState with replaySessions := [("sX", freshReplaySession "sX")] }
        { method := "GET", url := "/api/data", headers := [("x-test-rcrd-id", "sX")] } =
      RouteTag.forward ∧
    routeRequest
        { initialState with replaySessions := [("sX", freshReplaySession "sX")] }
        { method := "GET", url := "/api/data", headers := [("x-test-rcrd-id", "sX")] } ≠
      RouteTag.replayDispatch ∧
    getRecordingIdFromRequest
        { method := "GET", url := "/api/data", headers := [("x-test-rcrd-id", "sX")] } =
      some "sX" ∧
    ({ initialState with
        replaySessions := [("sX", freshReplaySession "sX")] }).mode = Mode.transparent := by
  decide

/-- C8 as amended: a data request (not a preflight, not the control
endpoint) reaches the replay dispatcher exactly when the engine's
singular `mode` is `replay`, regardless of any recording-id binding;
the binding only selects, inside the dispatcher, which replay session
serves the request (`resolveReplaySessionId`). -/
theorem dispatch_is_mode_only (st : EngineState) (req : Request)
    (hm : req.method ≠ "OPTIONS")
    (hc : (jsSplit req.url '?').getD 0 "" ≠ CONTROL_ENDPOINT) :
    (routeRequest st req = RouteTag.replayDispatch ↔ st.mode = Mode.replay) ∧
    (st.mode ≠ Mode.replay → routeRequest st req = RouteTag.forward) := by
  unfold routeRequest
  rw [if_neg hm, if_neg hc]
  constructor
  · constructor
    · intro h
      by_cases hmode : st.mode = Mode.replay
      · exact hmode
      · rw [if_neg hmode] at h
        exact absurd h (by intro hh; exact RouteTag.noConfusion hh)
    · intro h
      rw [if_pos h]
  · intro h
    rw [if_neg h]

/-- Witness for `dispatch_is_mode_only` at a concrete replay-mode state
and request. -/
theorem dispatch_is_mode_only_witness :
    routeRequest { initialState with mode := Mode.replay }
        { method := "GET", url := "/api", headers := [] } =
      RouteTag.replayDispatch :=
  ((dispatch_is_mode_only { initialState with mode := Mode.replay }
      { method := "GET", url := "/api", headers := [] }
      (by decide) (by decide)).1).mpr rfl

/-- Auxiliary: a filtered association list no longer contains the
dropped key. -/
theorem lookup_filter_ne_none (l : List (String × ReplaySessionState)) (theId : String) :
    (l.filter (fun kv => kv.1 ≠ theId)).lookup theId = none := by
  induction l with
  | nil => rfl
  | cons kv rest ih =>
    obtain ⟨k1, v1⟩ := kv
    by_cases hk : k1 ≠ theId
    · rw [List.filter_cons, if_pos (by simpa using hk), List.lookup_cons]
      have hne : (theId == k1) = false := by
        rw [beq_eq_false_iff_ne]
        intro he
        exact hk he.symm
      rw [hne]
      exact ih
    · rw [List.filter_cons, if_neg (by simpa using hk)]
      exact ih

/-- C5: the control channel accepts `{cleanup: true, id}` as its own
operation, routed past the mode-switch branch: it answers 200, leaves
the mode untouched, drops the id's replay session state, and persists
the id's record session when one is active. -/
theorem cleanup_control_operation (st : EngineState) (id : String) (hid : id ≠ "") :
    dispatchControl st { mode := none, id := some id, timeout := none, cleanup := true } =
      handleCleanupRequest st (some id) ∧
    (handleCleanupRequest st (some id)).2.statusCode = 200 ∧
    (handleCleanupRequest st (some id)).1.mode = st.mode ∧
    (handleCleanupRequest st (some id)).1.replaySessions.lookup id = none ∧
    (∀ s, st.currentSession = some s → st.recordingId = some id →
      (handleCleanupRequest st (some id)).1.persisted =
        st.persisted ++ [persistedDocument s] ∧
      (handleCleanupRequest st (some id)).1.currentSession = none) ∧
    (st.currentSession = none →
      (handleCleanupRequest st (some id)).1.persisted = st.persisted) := by
  have hmiss : idMissing (some id) = false := by
    unfold idMissing
    simpa using hid
  have hgetD : (some id).getD "" = id := rfl
  refine ⟨rfl, ?_, ?_, ?_, ?_, ?_⟩
  · unfold handleCleanupRequest
    rw [hmiss]
    simp only [Bool.false_eq_true, if_false]
    rfl
  · unfold handleCleanupRequest
    rw [hmiss]
    simp only [Bool.false_eq_true, if_false]
    by_cases hra : st.currentSession.isSome = true ∧ st.recordingId = some ((some id).getD "")
    · simp only [if_pos hra]
      unfold saveCurrentSession
      cases hcs : st.currentSession <;> rfl
    · simp only [if_neg hra]
  · unfold handleCleanupRequest
    rw [hmiss]
    simp only [Bool.false_eq_true, if_false]
    by_cases hra : st.currentSession.isSome = true ∧ st.recordingId = some ((some id).getD "")
    · simp only [if_pos hra]
      unfold saveCurrentSession
      cases hcs : st.currentSession <;> exact lookup_filter_ne_none _ _
    · simp only [if_neg hra]
      exact lookup_filter_ne_none _ _
  · intro s hcs hrid
    have hra : st.currentSession.isSome = true ∧
        st.recordingId = some ((some id).getD "") := ⟨by rw [hcs]; rfl, by rw [hgetD]; exact hrid⟩
    unfold handleCleanupRequest
    rw [hmiss]
    simp only [Bool.false_eq_true, if_false, if_pos hra]
    unfold saveCurrentSession
    rw [hcs]
    exact ⟨rfl, by trivial⟩
  · intro hcs
    have hra : ¬ (st.currentSession.isSome = true ∧
        st.recordingId = some ((some id).getD "")) := by
      intro ⟨h1, _⟩
      rw [hcs] at h1
      exact Bool.noConfusion h1
    unfold handleCleanupRequest
    rw [hmiss]
    simp only [Bool.false_eq_true, if_false, if_neg hra]

/-- Witness for `cleanup_control_operation` at a concrete state with an
active record session and a live replay session for the same id. -/
theorem cleanup_control_operation_witness :
    (dispatchControl
        { initialState with
            mode := Mode.record
            recordingId := some "sW"
            currentSession := some { id := "sW", recordings := [] }
            replaySessions := [("sW", freshReplaySession "sW")] }
        { mode := none, id := some "sW", timeout := none, cleanup := true }).2.statusCode =
      200 :=
  ((cleanup_control_operation
    { initialState with
        mode := Mode.record
        recordingId := some "sW"
        currentSession := some { id := "sW", recordings := [] }
        replaySessions := [("sW", freshReplaySession "sW")] }
    "sW" (by decide)).1) ▸ ((cleanup_control_operation
    { initialState with
        mode := Mode.record
        recordingId := some "sW"
        currentSession := some { id := "sW", recordings := [] }
        replaySessions := [("sW", freshReplaySession "sW")] }
    "sW" (by decide)).2.1)

end TestProxyRecorder

namespace TestProxyRecorder

/-- Elements of `updateFirst p f l` come from `l`, possibly through
`f`. -/
theorem mem_updateFirst (p : α → Bool) (f : α → α) (l : List α) (x : α)
    (h : x ∈ updateFirst p f l) : x ∈ l ∨ ∃ y ∈ l, x = f y := by
  induction l with
  | nil => cases h
  | cons y rest ih =>
    rw [updateFirst] at h
    by_cases hp : p y = true
    · rw [if_pos hp] at h
      rcases List.mem_cons.mp h with h1 | h2
      · exact Or.inr ⟨y, List.mem_cons_self _ _, h1⟩
      · exact Or.inl (List.mem_cons_of_mem _ h2)
    · rw [if_neg hp] at h
      rcases List.mem_cons.mp h with h1 | h2
      · exact Or.inl (h1 ▸ List.mem_cons_self _ _)
      · rcases ih h2 with h3 | ⟨y', hy', hx⟩
        · exact Or.inl (List.mem_cons_of_mem _ h3)
        · exact Or.inr ⟨y', List.mem_cons_of_mem _ hy', hx⟩

/-- When nothing in the prefix matches and the appended element does,
`updateFirst` rewrites exactly the appended element. -/
theorem updateFirst_append_last (p : α → Bool) (f : α → α) (xs : List α) (x : α)
    (hxs : ∀ y ∈ xs, p y = false) (hx : p x = true) :
    updateFirst p f (xs ++ [x]) = xs ++ [f x] := by
  induction xs with
  | nil => simp [updateFirst, hx]
  | cons y rest ih =>
    rw [List.cons_append, updateFirst, hxs y (List.mem_cons_self _ _)]
    simp only [Bool.false_eq_true, if_false, List.cons_append]
    rw [ih (fun z hz => hxs z (List.mem_cons_of_mem _ hz))]

/-- Elements of a group built by `insertGroup` are the inserted element
or come from the previous groups. -/
theorem insertGroup_mem (k : String) (r : Recording)
    (gs : List (String × List Recording)) (kg : String × List Recording)
    (hkg : kg ∈ insertGroup k r gs) (y : Recording) (hy : y ∈ kg.2) :
    y = r ∨ ∃ kg' ∈ gs, y ∈ kg'.2 := by
  induction gs with
  | nil =>
    rw [insertGroup] at hkg
    rcases List.mem_singleton.mp hkg with rfl
    rcases List.mem_singleton.mp hy with rfl
    exact Or.inl rfl
  | cons kg0 rest ih =>
    obtain ⟨k0, g0⟩ := kg0
    rw [insertGroup] at hkg
    by_cases hk : k0 = k
    · rw [if_pos hk] at hkg
      rcases List.mem_cons.mp hkg with h1 | h2
      · subst h1
        rcases List.mem_append.mp hy with h3 | h4
        · exact Or.inr ⟨(k0, g0), List.mem_cons_self _ _, h3⟩
        · exact Or.inl (List.mem_singleton.mp h4)
      · exact Or.inr ⟨kg, List.mem_cons_of_mem _ h2, hy⟩
    · rw [if_neg hk] at hkg
      rcases List.mem_cons.mp hkg with h1 | h2
      · exact Or.inr ⟨(k0, g0), List.mem_cons_self _ _, h1 ▸ hy⟩
      · rcases ih h2 with h3 | ⟨kg', hkg', hy'⟩
        · exact Or.inl h3
        · exact Or.inr ⟨kg', List.mem_cons_of_mem _ hkg', hy'⟩

/-- Every recording inside a `groupByKey` group comes from the input
list. -/
theorem groupByKey_mem (rs : List Recording) (kg : String × List Recording)
    (hkg : kg ∈ groupByKey rs) (y : Recording) (hy : y ∈ kg.2) : y ∈ rs := by
  suffices h : ∀ (rs : List Recording) (acc : List (String × List Recording))
      (kg : String × List Recording), kg ∈ rs.foldl (fun acc r => insertGroup r.key r acc) acc →
      ∀ y ∈ kg.2, y ∈ rs ∨ ∃ kg' ∈ acc, y ∈ kg'.2 by
    rcases h rs [] kg hkg y hy with h1 | ⟨kg', hkg', _⟩
    · exact h1
    · cases hkg'
  intro rs
  induction rs with
  | nil =>
    intro acc kg hkg y hy
    exact Or.inr ⟨kg, hkg, hy⟩
  | cons r rest ih =>
    intro acc kg hkg y hy
    rw [List.foldl_cons] at hkg
    rcases ih _ kg hkg y hy with h1 | ⟨kg', hkg', hy'⟩
    · exact Or.inl (List.mem_cons_of_mem _ h1)
    · rcases insertGroup_mem _ _ _ _ hkg' y hy' with h2 | ⟨kg'', hkg'', hy''⟩
      · exact Or.inl (h2 ▸ List.mem_cons_self _ _)
      · exact Or.inr ⟨kg'', hkg'', hy''⟩

/-- Elements of `assignFrom` are input elements with a reassigned
sequence. -/
theorem mem_assignFrom (i : Nat) (g : List Recording) (r : Recording)
    (h : r ∈ assignFrom i g) : ∃ y ∈ g, ∃ j, r = { y with sequence := some j } := by
  induction g generalizing i with
  | nil => cases h
  | cons y rest ih =>
    rw [assignFrom] at h
    rcases List.mem_cons.mp h with h1 | h2
    · exact ⟨y, List.mem_cons_self _ _, i, h1⟩
    · obtain ⟨y', hy', j, hj⟩ := ih (i + 1) h2
      exact ⟨y', List.mem_cons_of_mem _ hy', j, hj⟩

/-- Every recording of the persisted document is an input recording
with a reassigned `sequence`. -/
theorem mem_processRecordings (rs : List Recording) (r : Recording)
    (h : r ∈ processRecordings rs) :
    ∃ r₀ ∈ rs, ∃ j, r = { r₀ with sequence := some j } := by
  simp only [processRecordings] at h
  unfold sortByRecordingId at h
  rw [List.mem_insertionSort] at h
  obtain ⟨block, hblock, hr⟩ := List.mem_flatten.mp h
  obtain ⟨kg, hkg, rfl⟩ := List.mem_map.mp hblock
  unfold assignSequences at hr
  obtain ⟨y, hy, j, hj⟩ := mem_assignFrom _ _ _ hr
  rw [List.mem_insertionSort] at hy
  exact ⟨y, groupByKey_mem rs kg hkg y hy, j, hj⟩

end TestProxyRecorder

namespace TestProxyRecorder

/-- C9: a forwarded request whose upstream connection fails is answered
502 with body `{"error": "Proxy error", "message": …}` plus the CORS
overlay; the shell recording captured for it keeps `response` absent;
and no recording without a response — that one included — reaches the
persisted session document. -/
theorem upstream_failure_five_oh_two_and_exclusion (st : EngineState)
    (req : Request) (bufferedBody errMessage : String) (s : RecordingSession)
    (hcs : st.currentSession = some s)
    (hfresh : ∀ r ∈ s.recordings, r.recordingId < st.recordingIdCounter) :
    ((recordModeUpstreamFailure st req bufferedBody errMessage).2 =
        handleProxyError req errMessage ∧
      (handleProxyError req errMessage).statusCode = 502 ∧
      (handleProxyError req errMessage).body =
        .json [("error", .s "Proxy error"), ("message", .s errMessage)] ∧
      hasCorsOverlay req (handleProxyError req errMessage)) ∧
    ((recordModeUpstreamFailure st req bufferedBody errMessage).1.currentSession =
        some { s with recordings := s.recordings ++ [failedShell st req bufferedBody] } ∧
      (failedShell st req bufferedBody).response = none) ∧
    (∀ r ∈ (persistedDocument
        { s with
          recordings := s.recordings ++ [failedShell st req bufferedBody] }).recordings,
      r.response.isSome ∧ r.recordingId ≠ st.recordingIdCounter) := by
  refine ⟨⟨rfl, rfl, rfl, hasCorsOverlay_merge req _ _ _⟩, ⟨?_, rfl⟩, ?_⟩
  · unfold recordModeUpstreamFailure saveRequestRecordSync
    rw [hcs]
    simp only
    unfold updateRequestBodySync
    simp only
    rw [updateFirst_append_last _ _ _ _
      (fun y hy => by
        simp only [decide_eq_false_iff_not]
        exact Nat.ne_of_lt (hfresh y hy))
      (by simp)]
    rfl
  · intro r hr
    unfold persistedDocument saveRecordingSession at hr
    simp only at hr
    obtain ⟨r₀, hr₀, j, rfl⟩ := mem_processRecordings _ _ hr
    rw [List.mem_filter] at hr₀
    obtain ⟨hr₀mem, hr₀resp⟩ := hr₀
    refine ⟨by simpa using hr₀resp, ?_⟩
    rcases List.mem_append.mp hr₀mem with h1 | h2
    · exact Nat.ne_of_lt (hfresh r₀ h1)
    · rcases List.mem_singleton.mp h2 with rfl
      simp [failedShell] at hr₀resp

/-- Witness for `upstream_failure_five_oh_two_and_exclusion` at a
concrete record-mode state. -/
theorem upstream_failure_witness :
    (recordModeUpstreamFailure
        { initialState with
            mode := Mode.record
            recordingId := some "sF"
            currentSession := some { id := "sF", recordings := [] } }
        { method := "POST", url := "/api/x", headers := [] }
        "hello" "connect ECONNREFUSED").2.statusCode = 502 := by
  have h := upstream_failure_five_oh_two_and_exclusion
    { initialState with
        mode := Mode.record
        recordingId := some "sF"
        currentSession := some { id := "sF", recordings := [] } }
    { method := "POST", url := "/api/x", headers := [] }
    "hello" "connect ECONNREFUSED" { id := "sF", recordings := [] }
    rfl (by intro r hr; cases hr)
  rw [h.1.1]
  exact h.1.2.1

/-- C10: none of the capture operations ever stores an empty-string
body: an empty buffered request body or upstream response body is
stored as `null` (`body || null`), so the no-empty-string-body
invariant of the current session is preserved by `saveRequestRecordSync`,
`updateRequestBodySync` and `recordResponseData`. -/
theorem stored_bodies_never_empty :
    (∀ st req body, stateNoEmptyBodies st →
      stateNoEmptyBodies (saveRequestRecordSync st req body).1) ∧
    (∀ st rid body, stateNoEmptyBodies st →
      stateNoEmptyBodies (updateRequestBodySync st rid body)) ∧
    (∀ st rid statusCode headers body, stateNoEmptyBodies st →
      stateNoEmptyBodies (recordResponseData st rid statusCode headers body).1) ∧
    jsOrNull "" = none := by
  refine ⟨?_, ?_, ?_, rfl⟩
  · intro st req body h
    unfold saveRequestRecordSync
    cases hcs : st.currentSession with
    | none => simpa [hcs] using h
    | some s =>
      intro s' hs'
      simp only at hs'
      obtain rfl := Option.some.inj hs'
      intro r hr
      rcases List.mem_append.mp hr with h1 | h2
      · exact h s hcs r h1
      · rcases List.mem_singleton.mp h2 with rfl
        refine ⟨?_, ?_⟩
        · cases body with
          | none => simp
          | some b => simpa using jsOrNull_ne_some_empty b
        · intro resp hresp
          exact Option.noConfusion hresp
  · intro st rid body h
    unfold updateRequestBodySync
    cases hcs : st.currentSession with
    | none => simpa [hcs] using h
    | some s =>
      intro s' hs'
      simp only at hs'
      obtain rfl := Option.some.inj hs'
      intro r hr
      rcases mem_updateFirst _ _ _ _ hr with h1 | ⟨y, hy, rfl⟩
      · exact h s hcs r h1
      · refine ⟨by simpa using jsOrNull_ne_some_empty body, ?_⟩
        intro resp hresp
        exact (h s hcs y hy).2 resp hresp
  · intro st rid statusCode headers body h
    unfold recordResponseData
    cases hcs : st.currentSession with
    | none => simpa [hcs] using h
    | some s =>
      by_cases hany : s.recordings.any (fun r => r.recordingId = rid) = true
      · simp only [hany, if_true]
        intro s' hs'
        simp only at hs'
        obtain rfl := Option.some.inj hs'
        intro r hr
        rcases mem_updateFirst _ _ _ _ hr with h1 | ⟨y, hy, rfl⟩
        · exact h s hcs r h1
        · refine ⟨(h s hcs y hy).1, ?_⟩
          intro resp hresp
          obtain rfl := Option.some.inj hresp
          simpa using jsOrNull_ne_some_empty body
      · simp only [hany, Bool.false_eq_true, if_false]
        simpa [hcs] using h

/-- Witness for `stored_bodies_never_empty`: recording an empty
response body on a concrete session stores `null` and keeps the
invariant. -/
theorem stored_bodies_never_empty_witness :
    stateNoEmptyBodies
      (recordResponseData
        { initialState with
            currentSession := (some
              { id := "sB"
                recordings := [{ request := { method := "GET", url := "/x",
                                              headers := [], body := none }
                                 response := none, key := "GET_x.json"
                                 recordingId := 0, sequence := none }] }) }
        0 200 [] "").1 :=
  stored_bodies_never_empty.2.2.1
    { initialState with
        currentSession := (some
          { id := "sB"
            recordings := [{ request := { method := "GET", url := "/x",
                                          headers := [], body := none }
                             response := none, key := "GET_x.json"
                             recordingId := 0, sequence := none }] }) }
    0 200 [] ""
    (by
      intro s hs
      obtain rfl := Option.some.inj hs
      intro r hr
      rcases List.mem_singleton.mp hr with rfl
      exact ⟨by simp, fun resp hresp => Option.noConfusion hresp⟩)

end TestProxyRecorder

namespace TestProxyRecorder

/-- The function `find?` only depends on the predicate's values on the list. -/
theorem find_congr (f g : α → Bool) :
    ∀ (l : List α), (∀ x ∈ l, f x = g x) → l.find? f = l.find? g
  | [], _ => rfl
  | x :: xs, h => by
    have hx := h x (List.mem_cons_self _ _)
    cases hgx : g x with
    | true =>
      rw [List.find?_cons_of_pos _ (hgx ▸ hx), List.find?_cons_of_pos _ hgx]
    | false =>
      rw [List.find?_cons_of_neg _ (by rw [hx, hgx]; exact Bool.false_ne_true),
        List.find?_cons_of_neg _ (by rw [hgx]; exact Bool.false_ne_true)]
      exact find_congr f g xs (fun y hy => h y (List.mem_cons_of_mem _ hy))

/-- In a duplicate-free list, the `k`-th element does not occur among
the first `k`. -/
theorem getElem_not_mem_take (l : List Nat) (k : Nat) (hk : k < l.length)
    (hnd : l.Nodup) : l[k] ∉ l.take k := by
  intro hmem
  have hsplit : l.take k ++ l.drop k = l := List.take_append_drop k l
  have hnd' : (l.take k ++ l.drop k).Nodup := by rw [hsplit]; exact hnd
  rw [List.nodup_append] at hnd'
  have hdrop : l[k] ∈ l.drop k := by
    rw [List.drop_eq_getElem_cons hk]
    exact List.mem_cons_self _ _
  exact hnd'.2.2 hmem hdrop

/-- With the first `k` recording ids served, `find?` returns the `k`-th
candidate: the selection is purely ordinal. -/
theorem find_unserved_take (l : List Recording) :
    ∀ (k : Nat), (l.map (fun r => r.recordingId)).Nodup → k < l.length →
      l.find? (fun r => !((l.take k).map (fun r => r.recordingId)).contains r.recordingId) =
        l[k]? := by
  induction l with
  | nil => intro k _ hk; exact absurd hk (Nat.not_lt_zero k)
  | cons x xs ih =>
    intro k hnd hk
    cases k with
    | zero =>
      rw [List.find?_cons_of_pos _ (by simp)]
      simp
    | succ j =>
      have hx : x.recordingId ∉ xs.map (fun r => r.recordingId) :=
        (List.nodup_cons.mp (by simpa using hnd)).1
      rw [List.find?_cons_of_neg _ (by simp [List.take_succ_cons])]
      have hcong :
          xs.find? (fun r =>
            !(((x :: xs).take (j + 1)).map (fun r => r.recordingId)).contains r.recordingId) =
          xs.find? (fun r =>
            !((xs.take j).map (fun r => r.recordingId)).contains r.recordingId) := by
        apply find_congr
        intro r hr
        have hne : r.recordingId ≠ x.recordingId := by
          intro he
          exact hx (he ▸ List.mem_map_of_mem _ hr)
        simp [List.take_succ_cons, hne]
      rw [hcong, ih j (List.Nodup.of_cons (by simpa using hnd)) (Nat.lt_of_succ_lt_succ hk)]
      simp

/-- The served set after `k` requests is exactly the ids of the first
`k` candidates. -/
theorem servedAfter_eq_take (cands : List Recording)
    (hnd : (cands.map (fun r => r.recordingId)).Nodup) :
    ∀ k, servedAfter cands k = (cands.take k).map (fun r => r.recordingId) := by
  intro k
  induction k with
  | zero => rfl
  | succ k ih =>
    rw [servedAfter, ih]
    unfold replayStep selectReplayRecord
    by_cases hk : k < cands.length
    · rw [find_unserved_take cands k hnd hk, List.getElem?_eq_getElem hk]
      simp only
      unfold setAdd
      have hnotin : cands[k].recordingId ∉ (cands.take k).map (fun r => r.recordingId) := by
        intro hmem
        have hkM : k < (cands.map (fun r => r.recordingId)).length := by simpa using hk
        have h1 : (cands.map (fun r => r.recordingId))[k] ∈
            (cands.map (fun r => r.recordingId)).take k := by
          rw [List.getElem_map, ← List.map_take]
          exact hmem
        exact getElem_not_mem_take _ k hkM hnd h1
      have hkM : k < (cands.map (fun r => r.recordingId)).length := by simpa using hk
      have hstep : (cands.map (fun r => r.recordingId)).take (k + 1) =
          (cands.map (fun r => r.recordingId)).take k ++ [cands[k].recordingId] := by
        rw [List.take_succ, List.getElem?_eq_getElem hkM, List.getElem_map]
        rfl
      rw [if_neg hnotin]
      simp only [List.map_take]
      rw [hstep]
    · rw [List.take_of_length_le (Nat.le_of_not_lt hk)]
      have hfind : cands.find?
          (fun r => !(cands.map (fun r => r.recordingId)).contains r.recordingId) = none := by
        rw [List.find?_eq_none]
        intro r hr
        simp [List.mem_map_of_mem _ hr]
      rw [hfind]
      cases hlast : cands.getLast? with
      | none =>
        simp only
        rw [List.take_of_length_le (by omega)]
      | some last =>
        simp only
        unfold setAdd
        have hmem : last.recordingId ∈ cands.map (fun r => r.recordingId) := by
          obtain ⟨hne, heq⟩ :=
            List.mem_getLast?_eq_getLast (Option.mem_def.mpr hlast)
          refine List.mem_map_of_mem _ ?_
          rw [heq]
          exact List.getLast_mem hne
        rw [if_pos hmem, List.take_of_length_le (by omega)]

/-- The ordinal formula for one key's replay, over an arbitrary
candidate list. -/
theorem nthReplay_formula (cands : List Recording)
    (hnd : (cands.map (fun r => r.recordingId)).Nodup)
    (hpos : 0 < cands.length) (k : Nat) :
    nthReplay cands k = cands[min k (cands.length - 1)]? := by
  unfold nthReplay
  rw [servedAfter_eq_take cands hnd]
  unfold replayStep selectReplayRecord
  by_cases hk : k < cands.length
  · rw [find_unserved_take cands k hnd hk, List.getElem?_eq_getElem hk]
    simp only
    have hmin : min k (cands.length - 1) = k := by omega
    rw [hmin, List.getElem?_eq_getElem hk]
  · rw [List.take_of_length_le (Nat.le_of_not_lt hk)]
    have hfind : cands.find?
        (fun r => !(cands.map (fun r => r.recordingId)).contains r.recordingId) = none := by
      rw [List.find?_eq_none]
      intro r hr
      simp [List.mem_map_of_mem _ hr]
    rw [hfind, List.getLast?_eq_getElem?]
    have hmin : min k (cands.length - 1) = cands.length - 1 := by omega
    rw [hmin, List.getElem?_eq_getElem (by omega)]

/-- C1: for every key of a replay session, with candidates
`c0 … c(n-1)` (matching recordings with a response, in sorted order),
the `k`-th request for that key returns `c_{min(k, n-1)}`: the first
not-yet-served candidate while any remain, the last one repeatedly
afterwards. -/
theorem replay_serves_candidates_in_order (session : RecordingSession) (key : String)
    (hnd : ((candidatesFor session key).map (fun r => r.recordingId)).Nodup)
    (hpos : 0 < (candidatesFor session key).length) (k : Nat) :
    nthReplay (candidatesFor session key) k =
      (candidatesFor session key)[min k ((candidatesFor session key).length - 1)]? :=
  nthReplay_formula (candidatesFor session key) hnd hpos k

end TestProxyRecorder

namespace TestProxyRecorder

/-- Witness for `replay_serves_candidates_in_order`: with two recorded
candidates the third request replays the last one again. -/
theorem replay_serves_candidates_in_order_witness :
    nthReplay
      (candidatesFor
        { id := "sR"
          recordings :=
            [{ request := { method := "GET", url := "/x", headers := [], body := none }
               response := some { statusCode := 200, headers := [], body := some "one" }
               key := "K", recordingId := 0, sequence := some 0 },
             { request := { method := "GET", url := "/x", headers := [], body := none }
               response := some { statusCode := 200, headers := [], body := some "two" }
               key := "K", recordingId := 1, sequence := some 1 }] } "K") 2 =
      (candidatesFor
        { id := "sR"
          recordings :=
            [{ request := { method := "GET", url := "/x", headers := [], body := none }
               response := some { statusCode := 200, headers := [], body := some "one" }
               key := "K", recordingId := 0, sequence := some 0 },
             { request := { method := "GET", url := "/x", headers := [], body := none }
               response := some { statusCode := 200, headers := [], body := some "two" }
               key := "K", recordingId := 1, sequence := some 1 }] } "K")[min 2
        ((candidatesFor
          { id := "sR"
            recordings :=
              [{ request := { method := "GET", url := "/x", headers := [], body := none }
                 response := some { statusCode := 200, headers := [], body := some "one" }
                 key := "K", recordingId := 0, sequence := some 0 },
               { request := { method := "GET", url := "/x", headers := [], body := none }
                 response := some { statusCode := 200, headers := [], body := some "two" }
                 key := "K", recordingId := 1, sequence := some 1 }] } "K").length - 1)]? :=
  replay_serves_candidates_in_order
    { id := "sR"
      recordings :=
        [{ request := { method := "GET", url := "/x", headers := [], body := none }
           response := some { statusCode := 200, headers := [], body := some "one" }
           key := "K", recordingId := 0, sequence := some 0 },
         { request := { method := "GET", url := "/x", headers := [], body := none }
           response := some { statusCode := 200, headers := [], body := some "two" }
           key := "K", recordingId := 1, sequence := some 1 }] } "K"
    (by decide) (by decide) 2

end TestProxyRecorder

namespace TestProxyRecorder

/-- The helper `insertGroup` appends the new recording to the looked-up group of
its key and leaves every other key's group unchanged. -/
theorem insertGroup_lookup (K k : String) (r : Recording)
    (gs : List (String × List Recording)) :
    groupLookup K (insertGroup k r gs) =
      groupLookup K gs ++ (if k = K then [r] else []) := by
  induction gs with
  | nil =>
    rw [insertGroup, groupLookup, groupLookup]
    by_cases hK : k = K
    · rw [if_pos hK, if_pos hK]
      rfl
    · rw [if_neg hK, if_neg hK]
      rfl
  | cons kg rest ih =>
    obtain ⟨k0, g0⟩ := kg
    rw [insertGroup]
    by_cases h0 : k0 = k
    · rw [if_pos h0, groupLookup, groupLookup]
      by_cases hK : k0 = K
      · rw [if_pos hK, if_pos (h0.symm.trans hK), if_pos hK]
      · rw [if_neg hK, if_neg (fun he => hK (h0.trans he)), List.append_nil, if_neg hK]
    · rw [if_neg h0, groupLookup, groupLookup]
      by_cases hK : k0 = K
      · rw [if_pos hK, if_pos hK]
        have hkK : ¬ k = K := fun he => h0 (he ▸ hK.symm ▸ rfl)
        rw [if_neg hkK, List.append_nil]
      · rw [if_neg hK, if_neg hK]
        exact ih

/-- The group that `groupByKey` builds for a key is exactly the filter
of the input by that key, in input order. -/
theorem groupByKey_lookup (K : String) (rs : List Recording) :
    groupLookup K (groupByKey rs) = rs.filter (fun r => r.key = K) := by
  suffices h : ∀ (rs : List Recording) (acc : List (String × List Recording)),
      groupLookup K (rs.foldl (fun acc r => insertGroup r.key r acc) acc) =
        groupLookup K acc ++ rs.filter (fun r => r.key = K) by
    simpa using h rs []
  intro rs
  induction rs with
  | nil =>
    intro acc
    simp
  | cons r rest ih =>
    intro acc
    rw [List.foldl_cons, ih, insertGroup_lookup, List.filter_cons]
    by_cases hk : r.key = K
    · rw [if_pos hk, if_pos (by simpa using hk)]
      simp
    · rw [if_neg hk, if_neg (by simpa using hk)]
      simp

end TestProxyRecorder

namespace TestProxyRecorder

/-- The helper `insertGroup` keeps the key list, merely appending a genuinely new
key at the end. -/
theorem insertGroup_keys (k : String) (r : Recording)
    (gs : List (String × List Recording)) :
    (insertGroup k r gs).map Prod.fst =
      if k ∈ gs.map Prod.fst then gs.map Prod.fst else gs.map Prod.fst ++ [k] := by
  induction gs with
  | nil => simp [insertGroup]
  | cons kg rest ih =>
    obtain ⟨k0, g0⟩ := kg
    rw [insertGroup]
    by_cases h0 : k0 = k
    · rw [if_pos h0]
      have : k ∈ ((k0, g0) :: rest).map Prod.fst := by
        simp [h0.symm]
      rw [if_pos this]
      simp
    · rw [if_neg h0, List.map_cons, List.map_cons, ih]
      by_cases hmem : k ∈ rest.map Prod.fst
      · rw [if_pos hmem, if_pos (by simp [hmem])]
      · rw [if_neg hmem, if_neg (by
          simp only [List.map_cons, List.mem_cons]
          rintro (h1 | h2)
          · exact h0 h1.symm
          · exact hmem h2)]
        simp

/-- The groups of `groupByKey` carry pairwise-distinct keys. -/
theorem groupByKey_keys_nodup (rs : List Recording) :
    ((groupByKey rs).map Prod.fst).Nodup := by
  suffices h : ∀ (rs : List Recording) (acc : List (String × List Recording)),
      (acc.map Prod.fst).Nodup →
      ((rs.foldl (fun acc r => insertGroup r.key r acc) acc).map Prod.fst).Nodup by
    exact h rs [] List.nodup_nil
  intro rs
  induction rs with
  | nil => intro acc hacc; exact hacc
  | cons r rest ih =>
    intro acc hacc
    rw [List.foldl_cons]
    apply ih
    rw [insertGroup_keys]
    by_cases hmem : r.key ∈ acc.map Prod.fst
    · rw [if_pos hmem]; exact hacc
    · rw [if_neg hmem]
      simp only [List.nodup_append, List.nodup_cons]
      exact ⟨hacc, by simp, by
        intro a ha hb
        rw [List.mem_singleton] at hb
        exact hmem (hb ▸ ha)⟩

/-- Every member of a `groupByKey` group carries the group's key. -/
theorem groupByKey_key_eq (rs : List Recording) (kg : String × List Recording)
    (hkg : kg ∈ groupByKey rs) (y : Recording) (hy : y ∈ kg.2) : y.key = kg.1 := by
  suffices h : ∀ (rs : List Recording) (acc : List (String × List Recording)),
      (∀ kg ∈ acc, ∀ y ∈ kg.2, y.key = kg.1) →
      ∀ kg ∈ rs.foldl (fun acc r => insertGroup r.key r acc) acc,
        ∀ y ∈ kg.2, y.key = kg.1 by
    exact h rs [] (by intro kg hkg; cases hkg) kg hkg y hy
  intro rs
  induction rs with
  | nil => intro acc hacc; exact hacc
  | cons r rest ih =>
    intro acc hacc
    rw [List.foldl_cons]
    apply ih
    -- invariant preserved by insertGroup of r at key r.key
    clear ih
    induction acc with
    | nil =>
      intro kg hkg y hy
      rw [insertGroup] at hkg
      rcases List.mem_singleton.mp hkg with rfl
      rcases List.mem_singleton.mp hy with rfl
      rfl
    | cons kg0 rest0 ih0 =>
      obtain ⟨k0, g0⟩ := kg0
      intro kg hkg y hy
      rw [insertGroup] at hkg
      by_cases h0 : k0 = r.key
      · rw [if_pos h0] at hkg
        rcases List.mem_cons.mp hkg with rfl | h2
        · rcases List.mem_append.mp hy with h3 | h4
          · exact hacc (k0, g0) (List.mem_cons_self _ _) y h3
          · rcases List.mem_singleton.mp h4 with rfl
            exact h0.symm
        · exact hacc kg (List.mem_cons_of_mem _ h2) y hy
      · rw [if_neg h0] at hkg
        rcases List.mem_cons.mp hkg with rfl | h2
        · exact hacc (k0, g0) (List.mem_cons_self _ _) y hy
        · exact ih0 (fun kg' hkg' => hacc kg' (List.mem_cons_of_mem _ hkg')) kg h2 y hy

end TestProxyRecorder

namespace TestProxyRecorder

/-- Keys of a processed group: sorting and sequence assignment do not
touch `key`. -/
theorem mem_processedGroup_key (g : List Recording) (x : Recording)
    (hx : x ∈ assignSequences (sortByRecordingId g)) : ∃ y ∈ g, x.key = y.key := by
  unfold assignSequences at hx
  obtain ⟨y, hy, j, rfl⟩ := mem_assignFrom _ _ _ hx
  unfold sortByRecordingId at hy
  rw [List.mem_insertionSort] at hy
  exact ⟨y, hy, rfl⟩

/-- An absent key looks up to the empty group. -/
theorem groupLookup_eq_nil (K : String) (gs : List (String × List Recording))
    (h : K ∉ gs.map Prod.fst) : groupLookup K gs = [] := by
  induction gs with
  | nil => rfl
  | cons kg rest ih =>
    obtain ⟨k1, g1⟩ := kg
    rw [groupLookup]
    rw [List.map_cons, List.mem_cons] at h
    rw [if_neg (fun he => h (Or.inl he.symm))]
    exact ih (fun hh => h (Or.inr hh))

/-- Filtering the flattened processed groups by a key keeps exactly the
processed group of that key. -/
theorem filter_flatten_processed (K : String) (gs : List (String × List Recording))
    (hinv : ∀ kg ∈ gs, ∀ y ∈ kg.2, y.key = kg.1)
    (hnd : (gs.map Prod.fst).Nodup) :
    ((gs.map (fun kg => assignSequences (sortByRecordingId kg.2))).flatten).filter
        (fun r => r.key = K) =
      assignSequences (sortByRecordingId (groupLookup K gs)) := by
  induction gs with
  | nil => rfl
  | cons kg0 rest ih =>
    obtain ⟨k0, g0⟩ := kg0
    rw [List.map_cons, List.flatten_cons, List.filter_append, groupLookup]
    have hrest := ih (fun kg hkg => hinv kg (List.mem_cons_of_mem _ hkg))
      (List.Nodup.of_cons (by simpa using hnd))
    by_cases hK : k0 = K
    · rw [if_pos hK]
      have hkeep : (assignSequences (sortByRecordingId g0)).filter (fun r => r.key = K) =
          assignSequences (sortByRecordingId g0) := by
        apply List.filter_eq_self.mpr
        intro x hx
        obtain ⟨y, hy, hxy⟩ := mem_processedGroup_key g0 x hx
        have : y.key = k0 := hinv (k0, g0) (List.mem_cons_self _ _) y hy
        simp [hxy, this, hK]
      have hdrop : ((rest.map (fun kg =>
          assignSequences (sortByRecordingId kg.2))).flatten).filter
          (fun r => r.key = K) = [] := by
        rw [hrest]
        have hK0 : K ∉ rest.map Prod.fst := by
          rw [List.map_cons, List.nodup_cons] at hnd
          exact hK ▸ hnd.1
        rw [groupLookup_eq_nil K rest hK0]
        rfl
      rw [hkeep, hdrop, List.append_nil]
    · rw [if_neg hK]
      have hdrop0 : (assignSequences (sortByRecordingId g0)).filter
          (fun r => r.key = K) = [] := by
        apply List.filter_eq_nil_iff.mpr
        intro x hx
        obtain ⟨y, hy, hxy⟩ := mem_processedGroup_key g0 x hx
        have hyk : y.key = k0 := hinv (k0, g0) (List.mem_cons_self _ _) y hy
        simp [hxy, hyk, hK]
      rw [hdrop0, List.nil_append, hrest]

end TestProxyRecorder

namespace TestProxyRecorder

/-- Sequence assignment leaves the `recordingId` column unchanged. -/
theorem assignFrom_map_recordingId (i : Nat) (g : List Recording) :
    (assignFrom i g).map (fun r => r.recordingId) = g.map (fun r => r.recordingId) := by
  induction g generalizing i with
  | nil => rfl
  | cons y rest ih => rw [assignFrom, List.map_cons, List.map_cons, ih]

/-- Sequence assignment writes consecutive numbers from the start
index. -/
theorem assignFrom_map_sequence (i : Nat) (g : List Recording) :
    (assignFrom i g).map (fun r => r.sequence) = (List.range' i g.length).map some := by
  induction g generalizing i with
  | nil => rfl
  | cons y rest ih =>
    rw [assignFrom, List.map_cons, ih, List.length_cons, List.range'_succ, List.map_cons]

theorem assignFrom_length (i : Nat) (g : List Recording) :
    (assignFrom i g).length = g.length := by
  induction g generalizing i with
  | nil => rfl
  | cons y rest ih => rw [assignFrom, List.length_cons, ih, List.length_cons]

/-- Pairwise `≤` plus no duplicates upgrades to pairwise `<`. -/
theorem pairwise_lt_of_le_nodup (l : List Nat)
    (h1 : l.Pairwise (fun a b => a ≤ b)) (h2 : l.Nodup) :
    l.Pairwise (fun a b => a < b) :=
  (h1.and h2).imp (fun h => Nat.lt_of_le_of_ne h.1 h.2)

/-- A record list whose `recordingId` column is pairwise `≤` and
duplicate-free is pairwise strictly increasing. -/
theorem pairwise_rid_lt (l : List Recording)
    (hle : l.Pairwise (fun a b => a.recordingId ≤ b.recordingId))
    (hnd : (l.map (fun r => r.recordingId)).Nodup) :
    l.Pairwise (fun a b => a.recordingId < b.recordingId) := by
  have h1 : (l.map (fun r => r.recordingId)).Pairwise (fun a b => a ≤ b) :=
    List.pairwise_map.mpr hle
  have h2 := pairwise_lt_of_le_nodup _ h1 hnd
  exact List.pairwise_map.mp h2

/-- C2: in the persisted session document, for every key, the
recordings of that key sorted by ascending `recordingId` carry
`sequence = 0, 1, 2, …` — the sequence is the rank of the
`recordingId` within the key group. -/
theorem persisted_sequences_are_ranks (session : RecordingSession) (K : String)
    (hnd : (session.recordings.map (fun r => r.recordingId)).Nodup) :
    (sortByRecordingId ((saveRecordingSession session).recordings.filter
        (fun r => r.key = K))).map (fun r => r.sequence) =
      (List.range (((saveRecordingSession session).recordings.filter
        (fun r => r.key = K)).length)).map some := by
  have hdoc : (saveRecordingSession session).recordings =
      processRecordings session.recordings := rfl
  rw [hdoc]
  have hunfold : processRecordings session.recordings = sortByRecordingId
      (((groupByKey session.recordings).map
        (fun kg => assignSequences (sortByRecordingId kg.2))).flatten) := rfl
  have hflat : ((((groupByKey session.recordings).map
      (fun kg => assignSequences (sortByRecordingId kg.2))).flatten).filter
        (fun r => r.key = K)) =
      assignSequences (sortByRecordingId
        (session.recordings.filter (fun r => r.key = K))) := by
    rw [filter_flatten_processed K (groupByKey session.recordings)
      (fun kg hkg y hy => groupByKey_key_eq session.recordings kg hkg y hy)
      (groupByKey_keys_nodup session.recordings), groupByKey_lookup]
  have hperm1 : List.Perm
      ((processRecordings session.recordings).filter (fun r => r.key = K))
      (assignSequences (sortByRecordingId
        (session.recordings.filter (fun r => r.key = K)))) := by
    rw [hunfold, ← hflat]
    exact List.Perm.filter _ (List.perm_insertionSort _ _)
  have hgKnd : ((session.recordings.filter (fun r => r.key = K)).map
      (fun r => r.recordingId)).Nodup :=
    List.Nodup.sublist (List.Sublist.map _ (List.filter_sublist _)) hnd
  have hsortnd : ((sortByRecordingId
      (session.recordings.filter (fun r => r.key = K))).map
        (fun r => r.recordingId)).Nodup :=
    (List.Perm.nodup_iff (List.Perm.map _ (List.perm_insertionSort _ _))).mpr hgKnd
  have hsorted : (sortByRecordingId
      (session.recordings.filter (fun r => r.key = K))).Pairwise
      (fun a b => a.recordingId ≤ b.recordingId) :=
    List.sorted_insertionSort _ _
  have hpgKrid : (assignSequences (sortByRecordingId
      (session.recordings.filter (fun r => r.key = K)))).map (fun r => r.recordingId) =
      (sortByRecordingId (session.recordings.filter (fun r => r.key = K))).map
        (fun r => r.recordingId) :=
    assignFrom_map_recordingId 0 _
  have hpgKle : (assignSequences (sortByRecordingId
      (session.recordings.filter (fun r => r.key = K)))).Pairwise
      (fun a b => a.recordingId ≤ b.recordingId) := by
    apply List.pairwise_map.mp
    rw [hpgKrid]
    exact List.pairwise_map.mpr hsorted
  have hpgKlt := pairwise_rid_lt _ hpgKle (hpgKrid ▸ hsortnd)
  have hs2perm : List.Perm
      (sortByRecordingId
        ((processRecordings session.recordings).filter (fun r => r.key = K)))
      (assignSequences (sortByRecordingId
        (session.recordings.filter (fun r => r.key = K)))) :=
    (List.perm_insertionSort _ _).trans hperm1
  have hs2nd : ((sortByRecordingId
      ((processRecordings session.recordings).filter (fun r => r.key = K))).map
        (fun r => r.recordingId)).Nodup :=
    (List.Perm.nodup_iff (List.Perm.map _ hs2perm)).mpr (hpgKrid ▸ hsortnd)
  have hs2le : (sortByRecordingId
      ((processRecordings session.recordings).filter (fun r => r.key = K))).Pairwise
      (fun a b => a.recordingId ≤ b.recordingId) :=
    List.sorted_insertionSort _ _
  have hs2lt := pairwise_rid_lt _ hs2le hs2nd
  have heq : sortByRecordingId
      ((processRecordings session.recordings).filter (fun r => r.key = K)) =
      assignSequences (sortByRecordingId
        (session.recordings.filter (fun r => r.key = K))) :=
    List.eq_of_perm_of_sorted hs2perm hs2lt hpgKlt
  rw [heq]
  unfold assignSequences
  rw [assignFrom_map_sequence]
  have hlen : (sortByRecordingId
      (session.recordings.filter (fun r => r.key = K))).length =
      ((processRecordings session.recordings).filter (fun r => r.key = K)).length := by
    rw [List.Perm.length_eq hperm1]
    unfold assignSequences
    rw [assignFrom_length]
  rw [hlen, List.range_eq_range']

/-- Witness for `persisted_sequences_are_ranks`: a concrete three-entry
session with interleaved keys. -/
theorem persisted_sequences_are_ranks_witness :
    (sortByRecordingId ((saveRecordingSession
      { id := "sC"
        recordings :=
          [{ request := { method := "GET", url := "/a", headers := [], body := none }
             response := some { statusCode := 200, headers := [], body := some "1" }
             key := "A", recordingId := 0, sequence := none },
           { request := { method := "POST", url := "/b", headers := [], body := none }
             response := some { statusCode := 201, headers := [], body := some "2" }
             key := "B", recordingId := 1, sequence := none },
           { request := { method := "GET", url := "/a", headers := [], body := none }
             response := some { statusCode := 200, headers := [], body := some "3" }
             key := "A", recordingId := 2, sequence := none }] }).recordings.filter
        (fun r => r.key = "A"))).map (fun r => r.sequence) =
      (List.range (((saveRecordingSession
        { id := "sC"
          recordings :=
            [{ request := { method := "GET", url := "/a", headers := [], body := none }
               response := some { statusCode := 200, headers := [], body := some "1" }
               key := "A", recordingId := 0, sequence := none },
             { request := { method := "POST", url := "/b", headers := [], body := none }
               response := some { statusCode := 201, headers := [], body := some "2" }
               key := "B", recordingId := 1, sequence := none },
             { request := { method := "GET", url := "/a", headers := [], body := none }
               response := some { statusCode := 200, headers := [], body := some "3" }
               key := "A", recordingId := 2, sequence := none }] }).recordings.filter
          (fun r => r.key = "A")).length)).map some :=
  persisted_sequences_are_ranks
    { id := "sC"
      recordings :=
        [{ request := { method := "GET", url := "/a", headers := [], body := none }
           response := some { statusCode := 200, headers := [], body := some "1" }
           key := "A", recordingId := 0, sequence := none },
         { request := { method := "POST", url := "/b", headers := [], body := none }
           response := some { statusCode := 201, headers := [], body := some "2" }
           key := "B", recordingId := 1, sequence := none },
         { request := { method := "GET", url := "/a", headers := [], body := none }
           response := some { statusCode := 200, headers := [], body := some "3" }
           key := "A", recordingId := 2, sequence := none }] } "A" (by decide)

end TestProxyRecorder

namespace TestProxyRecorder

set_option maxRecDepth 40000 in
/-- RFC 1321 test vector, validating the MD5 model. -/
theorem md5Hex_abc : md5Hex "abc" = "900150983cd24fb0d6963f7d28e17f72" := by
  decide

set_option maxRecDepth 40000 in
/-- C3, failing input: `getReqID` hashes `url.split('?')[1]` — only the
query text before a second `'?'` — instead of the raw query string, so
`GET /a?b?c` and `GET /a?b?d` (whose raw queries `b?c` and `b?d` have
MD5 prefixes `a6d476d87b003f8b` and `d2ea3739aad0f9a4`) collide on the
key built from `md5("b") = 92eb5ffee6ae2fec…`. -/
theorem getReqID_query_split_collision :
    getReqID "GET" "/a?b?c" = getReqID "GET" "/a?b?d" ∧
    getReqID "GET" "/a?b?c" = "GET_a_92eb5ffee6ae2fec.json" ∧
    md5Hex "b" = "92eb5ffee6ae2fec3ad71c777531578f" ∧
    (md5Hex "b?c").data.take 16 ≠ (md5Hex "b?d").data.take 16 := by
  refine ⟨by decide, by decide, by decide, by decide⟩

end TestProxyRecorder
